import Mathlib

/-!
# Digital door lock: access-control core of `digital_locker_with_LCD.c`

A shallow embedding of the lock logic of `src/digital_locker_with_LCD.c`
(`verify_password`, `run_key_function`, `get_key`, `block_time`, the
initialisation part of `main` and one pass of its foreground loop), followed by
theorems about it.

Modelling conventions.

* Every `char` global is kept as its byte (a `Nat`, reduced `% 256` after
  arithmetic); `wait` is the 16-bit `unsigned int` (reduced `% 65536`).  Plain
  `char` is signed, as under avr-gcc's default; the two places where the sign of
  a byte is observable (`show %= 2`, `wait += temp1`) spell the conversion out.
* `number[i]` with `i` outside `0..3` is a store outside the array: undefined
  behaviour, modelled as `none`.
* The EEPROM is a byte store `address → byte`; `EEPROM_write` and `EEPROM_read`
  are synchronous and reliable (their busy-wait loops never spin).
* The LCD, the delays and the keypad column drive (`PORTB`) do not flow back into
  the lock logic and are left out; `send_sms` is counted in `sms_sent`.
* The scratch loop counters (`temp`, `temp1`, `temp2`, `temp4`, `digit`,
  `column`) are local to the loops that use them.
-/

namespace DoorLock

/-- A four-cell `char` array (`number[4]`, `password[4]`). -/
structure Arr4 where
  a0 : Nat
  a1 : Nat
  a2 : Nat
  a3 : Nat
deriving DecidableEq, Repr

/-- Read of cell `i` (`i` in `0..3`). -/
def Arr4.get (a : Arr4) (i : Nat) : Nat :=
  match i with
  | 0 => a.a0
  | 1 => a.a1
  | 2 => a.a2
  | _ => a.a3

/-- In-bounds store `a[i] = v` (`i` in `0..3`). -/
def Arr4.set (a : Arr4) (i v : Nat) : Arr4 :=
  match i with
  | 0 => { a with a0 := v }
  | 1 => { a with a1 := v }
  | 2 => { a with a2 := v }
  | _ => { a with a3 := v }

/-- The result of `for(temp2 = 0; temp2 <= 3; temp2++) number[temp2] = 10;`. -/
def Arr4.sentinel : Arr4 := ⟨10, 10, 10, 10⟩

/-- The globals and registers the lock logic reads or writes. The fields
`show_`, `open_`, `match_` are the globals `show`, `open`, `match`; `sms_sent`
counts the calls of `send_sms`. -/
structure State where
  key : Nat
  number : Arr4
  index : Nat
  password : Arr4
  show_ : Nat
  open_ : Nat
  match_ : Nat
  miss_match : Nat
  block : Nat
  wait : Nat
  OUT_PORT : Nat
  TCCR1B : Nat
  eeprom : Nat → Nat
  sms_sent : Nat

/-- The door relay output: bit 0 of `OUT_PORT`. -/
def State.relay (s : State) : Bool := s.OUT_PORT.testBit 0

/-- The buzzer output: bit 1 of `OUT_PORT`. -/
def State.buzzer (s : State) : Bool := s.OUT_PORT.testBit 1

/-- `EEPROM_write(addr, data)`: the byte `data` is stored at `addr`. -/
def EEPROM_write (addr data : Nat) (s : State) : State :=
  { s with eeprom := Function.update s.eeprom addr (data % 256) }

/-- `EEPROM_read(addr)`: the byte stored at `addr`. -/
def EEPROM_read (addr : Nat) (s : State) : Nat := s.eeprom addr % 256

/-- Conversion of a (signed) `char` byte to the 16-bit `unsigned int`. -/
def char_to_uint (b : Nat) : Nat := if b < 128 then b else b + 65280

/-- The store `number[i] = v`; outside `0..3` it is undefined. -/
def number_store (i v : Nat) (s : State) : Option State :=
  if i < 4 then some { s with number := s.number.set i v } else none

/-- The loop of `verify_password`, from the loop test at counter `temp2` with the
current value of `match`: a mismatch clears `match` and sets `temp2 = 10`, after
which the increment makes it 11 and the test fails. -/
def verify_loop (number password : Arr4) (temp2 match_ : Nat) : Nat :=
  if temp2 ≤ 3 then
    if number.get temp2 ≠ password.get temp2 then
      verify_loop number password (10 + 1) 0
    else
      verify_loop number password (temp2 + 1) match_
  else match_
termination_by 4 - temp2
decreasing_by all_goals omega

/-- `verify_password()`. -/
def verify_password (s : State) : State :=
  { s with match_ := verify_loop s.number s.password 0 1 }

/-- `send_sms()`: one more alert handed to the GSM module. -/
def send_sms (s : State) : State := { s with sms_sent := s.sms_sent + 1 }

/-- The digit cases of `run_key_function`: `number[index] = d; index++;`. -/
def digit_case (d : Nat) (s : State) : Option State :=
  (number_store s.index d s).map fun t => { t with index := (t.index + 1) % 256 }

/-- The `show %= 2` of case 15 on the byte `b` of a signed `char`
(C remainder: a negative odd value gives -1, the byte 255). -/
def show_mod2 (b : Nat) : Nat :=
  if b < 128 then b % 2 else if b % 2 = 0 then 0 else 255

/-- Case 16 of `run_key_function` (open/close), up to `index = 0`. -/
def open_close_case (s : State) : State :=
  let s := verify_password s
  let s :=
    if s.match_ = 1 then
      let s :=
        if s.open_ = 0 then
          { s with open_ := 1, OUT_PORT := s.OUT_PORT ||| 0x01 }
        else
          { s with open_ := 0, OUT_PORT := s.OUT_PORT &&& 0xFE,
                   number := Arr4.sentinel, match_ := 0 }
      { s with miss_match := 0 }
    else
      let s := { s with miss_match := (s.miss_match + 1) % 256, number := Arr4.sentinel }
      if s.miss_match = 3 then
        let s := { s with block := 1 }
        let s := { s with OUT_PORT := ((s.OUT_PORT ||| 0x02) &&& 0x1F) ||| 0x20 }
        let s := send_sms s
        let s := EEPROM_write 10 s.block s
        { s with OUT_PORT := s.OUT_PORT &&& 0xFD, TCCR1B := 0x0D }
      else
        { s with OUT_PORT :=
            (((((s.OUT_PORT ||| 0x02) &&& 0x1F) ||| 0x40) &&& 0xFD) &&& 0x1F) ||| 0x80 }
  { s with index := 0 }

/-- `run_key_function()`: the `switch(key)` with its 16 cases; any other value
of `key` matches no case. -/
def run_key_function (s : State) : Option State :=
  match s.key with
  | 1 => digit_case 1 s
  | 2 => digit_case 2 s
  | 3 => digit_case 3 s
  | 4 =>
    let s := { s with index := (s.index + 255) % 256 }
    (number_store s.index 10 s).map fun t => { t with match_ := 0 }
  | 5 => digit_case 4 s
  | 6 => digit_case 5 s
  | 7 => digit_case 6 s
  | 8 => if s.match_ = 1 then some { s with number := Arr4.sentinel } else some s
  | 9 => digit_case 7 s
  | 10 => digit_case 8 s
  | 11 => digit_case 9 s
  | 12 =>
    if s.match_ = 1 then
      let s := { s with password := s.number }
      let s := EEPROM_write 0 (s.password.get 0) s
      let s := EEPROM_write 1 (s.password.get 1) s
      let s := EEPROM_write 2 (s.password.get 2) s
      let s := EEPROM_write 3 (s.password.get 3) s
      some s
    else some s
  | 13 =>
    some { s with index := 0, number := Arr4.sentinel, OUT_PORT := s.OUT_PORT &&& 0xFD }
  | 14 => digit_case 0 s
  | 15 => some { s with show_ := show_mod2 ((s.show_ + 1) % 256) }
  | 16 => some (open_close_case s)
  | _ => some s

/-- One pass of the `for` loop of `get_key` for `column`: `pinb column` is the
value of `PINB` read while that column is driven. `key > 0` is a signed `char`
test. After `run_key_function` the key is taken as released and `key = 0`. -/
def scan_column (pinb : Nat → Nat) (column : Nat) (s : State) : Option State :=
  let s :=
    match pinb column &&& 0xF0 with
    | 0x10 => { s with key := column }
    | 0x20 => { s with key := 4 + column }
    | 0x40 => { s with key := 8 + column }
    | 0x80 => { s with key := 12 + column }
    | _ => s
  if 0 < s.key ∧ s.key < 128 then
    (run_key_function s).map fun t => { t with key := 0 }
  else some s

/-- `get_key()`: the four columns are scanned in turn. -/
def get_key (pinb : Nat → Nat) (s : State) : Option State :=
  (((scan_column pinb 1 s).bind (scan_column pinb 2)).bind
    (scan_column pinb 3)).bind (scan_column pinb 4)

/-- One pass of the foreground loop of `main`:
`if(block == 0){ get_key(); display(); }`. -/
def main_loop (pinb : Nat → Nat) (s : State) : Option State :=
  if s.block = 0 then get_key pinb s else some s

/-- `block_time()`: the body run on each compare match of Timer1. -/
def block_time (s : State) : State :=
  let s := { s with wait := (s.wait + 1) % 65536 }
  if s.wait = 10 then
    let s := { s with TCCR1B := 0x00, wait := 0, block := 0, miss_match := 0 }
    let s := EEPROM_write 10 s.block s
    let s := EEPROM_write 11 0 s
    let s := EEPROM_write 12 0 s
    { s with OUT_PORT := (s.OUT_PORT &&& 0x1F) ||| 0x80 }
  else
    let s := EEPROM_write 11 (s.wait % 256) s
    EEPROM_write 12 (s.wait % 256) s

/-- The state in which `main` reaches its foreground loop after power-on with the
given EEPROM content: globals at their initial values, `OUT_PORT` as left by
`PIN_init` and the indicator updates, the password and the lockout state loaded
from the EEPROM. -/
def main_init (eeprom : Nat → Nat) : State :=
  let s : State :=
    { key := 0, number := ⟨10, 10, 10, 10⟩, index := 0, password := ⟨0, 0, 0, 0⟩,
      show_ := 1, open_ := 0, match_ := 0, miss_match := 0, block := 0, wait := 0,
      OUT_PORT := 0x00, TCCR1B := 0x00, eeprom := eeprom, sms_sent := 0 }
  let s := { s with OUT_PORT := s.OUT_PORT ||| 0x40 }
  let s := { s with password :=
    ⟨EEPROM_read 0 s, EEPROM_read 1 s, EEPROM_read 2 s, EEPROM_read 3 s⟩ }
  let s := { s with block := EEPROM_read 10 s }
  if s.block = 1 then
    let s := { s with OUT_PORT := s.OUT_PORT &&& 0x00 }
    let s := { s with OUT_PORT := s.OUT_PORT ||| 0x20 }
    let s := { s with wait := char_to_uint (EEPROM_read 11 s) }
    let s := { s with wait := (s.wait * 256) % 65536 }
    let s := { s with wait := (s.wait + char_to_uint (EEPROM_read 12 s)) % 65536 }
    { s with TCCR1B := 0x0D }
  else
    let s := { s with OUT_PORT := s.OUT_PORT &&& 0x00 }
    { s with OUT_PORT := s.OUT_PORT ||| 0x80 }

/-- A reset or power cycle with the EEPROM content retained: `main` starts again. -/
def reboot (s : State) : State := main_init s.eeprom

/-- `n` successive timer ticks. The compare-match routine of Timer1 is not in the
source file; as the comment in `block_time` says, each compare match runs
`block_time`. -/
def ticks : Nat → State → State
  | 0, s => s
  | n + 1, s => ticks n (block_time s)

/-- The keys of the 4x4 keypad, as the cases of `run_key_function` name them. -/
inductive Key where
  | digit (d : Fin 10)
  | clear
  | change
  | set
  | reset
  | show_hide
  | open_close
deriving DecidableEq, Repr

/-- The value `get_key` gives `key` for each key (`4*row + column`). -/
def Key.code : Key → Nat
  | .digit d =>
    match d.val with
    | 0 => 14
    | 1 => 1
    | 2 => 2
    | 3 => 3
    | 4 => 5
    | 5 => 6
    | 6 => 7
    | 7 => 9
    | 8 => 10
    | _ => 11
  | .clear => 4
  | .change => 8
  | .set => 12
  | .reset => 13
  | .show_hide => 15
  | .open_close => 16

/-- The `PINB` readings of one scan while the single key with code `k` (1..16) is
held: its row line (bits 4..7) is high while its column is driven. -/
def pinb_of_code (k : Nat) : Nat → Nat := fun column =>
  if column = (k - 1) % 4 + 1 then 0x10 * 2 ^ ((k - 1) / 4) else 0x00

/-- One pass of the foreground loop during which the key `e` is pressed. -/
def key_event (e : Key) (s : State) : Option State :=
  main_loop (pinb_of_code e.code) s

/-- Successive key events; undefined as soon as one of them is. -/
def key_events : List Key → State → Option State
  | [], s => some s
  | e :: es, s => (key_event e s).bind (key_events es)

/-- An EEPROM image holding the credential 1, 2, 3, 4 and no lockout. -/
def eeprom_1234 : Nat → Nat
  | 0 => 1
  | 1 => 2
  | 2 => 3
  | 3 => 4
  | _ => 0

/-- An EEPROM image whose four credential bytes are all 10, no lockout. -/
def eeprom_sentinel : Nat → Nat
  | 0 => 10
  | 1 => 10
  | 2 => 10
  | 3 => 10
  | _ => 0

/-- An EEPROM image whose four credential bytes are erased (0xFF), no lockout. -/
def eeprom_erased_credential : Nat → Nat
  | 0 => 255
  | 1 => 255
  | 2 => 255
  | 3 => 255
  | _ => 0

/-- The state with the door open: the device started with `eeprom_1234`, after
the keys 1, 2, 3, 4 and open/close. -/
def door_open_state : State :=
  { main_init eeprom_1234 with
      number := ⟨1, 2, 3, 4⟩, match_ := 1, open_ := 1, OUT_PORT := 0x81 }

/-- A locked-out state: the one `main` starts its loop in when the EEPROM holds
the credential 1, 2, 3, 4 and the lockout flag. -/
def locked_state : State := main_init (Function.update eeprom_1234 10 1)

/-- The state ready for a credential change: the door opened with the code
1, 2, 3, 4 (`match = 1`), then the digits 5, 6, 7, 8 typed. -/
def set_ready_state : State :=
  { door_open_state with number := ⟨5, 6, 7, 8⟩, index := 4 }

/-- An erased EEPROM: every byte 0xFF. -/
def eeprom_erased : Nat → Nat := fun _ => 255

/-- The events the device reacts to: a key press served by one pass of the
foreground loop, or a timer tick. -/
inductive Event where
  | key (e : Key)
  | tick
deriving DecidableEq, Repr

/-- The reaction to one event; a tick runs `block_time`. -/
def step (ev : Event) (s : State) : Option State :=
  match ev with
  | .key e => key_event e s
  | .tick => some (block_time s)

/-- Successive events; undefined as soon as one of them is. -/
def run : List Event → State → Option State
  | [], s => some s
  | ev :: evs, s => (step ev s).bind (run evs)

/-- Whether no open/close of the event sequence is served (`block = 0`) in a state
whose entry buffer `number` equals `password`. -/
def never_verifies : List Event → State → Bool
  | [], _ => true
  | ev :: evs, s =>
    (!(decide (ev = .key .open_close) && decide (s.block = 0) &&
        decide (s.number = s.password))) &&
    match step ev s with
    | some t => never_verifies evs t
    | none => true

/-! ## Verification loop -/

theorem verify_loop_exit (n p : Arr4) (t m : Nat) (h : 3 < t) :
    verify_loop n p t m = m := by
  rw [verify_loop]; simp [Nat.not_le.mpr h]

theorem verify_loop_step (n p : Arr4) (t m : Nat) (h : t ≤ 3) :
    verify_loop n p t m =
      if n.get t = p.get t then verify_loop n p (t + 1) m else 0 := by
  rw [verify_loop]
  by_cases e : n.get t = p.get t
  · simp [h, e]
  · simp [h, e, verify_loop_exit]

theorem verify_loop_eq (n p : Arr4) :
    verify_loop n p 0 1 = if n = p then 1 else 0 := by
  obtain ⟨n0, n1, n2, n3⟩ := n
  obtain ⟨p0, p1, p2, p3⟩ := p
  rw [verify_loop_step _ _ 0 _ (by decide), verify_loop_step _ _ 1 _ (by decide),
    verify_loop_step _ _ 2 _ (by decide), verify_loop_step _ _ 3 _ (by decide),
    verify_loop_exit _ _ 4 _ (by decide)]
  simp only [Arr4.get, Arr4.mk.injEq]
  by_cases h0 : n0 = p0 <;> by_cases h1 : n1 = p1 <;> by_cases h2 : n2 = p2 <;>
    by_cases h3 : n3 = p3 <;> simp [h0, h1, h2, h3]

theorem verify_password_eq (s : State) :
    verify_password s = { s with match_ := if s.number = s.password then 1 else 0 } := by
  simp [verify_password, verify_loop_eq]

/-! ## Keypad scan -/

theorem scan_column_idle (pinb : Nat → Nat) (c : Nat) (s : State)
    (hp : pinb c = 0) (hk : s.key = 0) : scan_column pinb c s = some s := by
  simp [scan_column, hp, hk]

theorem key_code_pos (e : Key) : 1 ≤ e.code ∧ e.code ≤ 16 := by
  cases e with
  | digit d =>
    obtain ⟨d, hd⟩ := d
    interval_cases d <;> simp [Key.code]
  | _ => simp [Key.code]

theorem get_key_of_code (k : Nat) (h1 : 1 ≤ k) (h16 : k ≤ 16) (s : State) (hk : s.key = 0) :
    get_key (pinb_of_code k) s =
      (run_key_function { s with key := k }).map fun t => { t with key := 0 } := by
  interval_cases k <;>
    cases h : run_key_function { s with key := _ } <;>
    simp [get_key, scan_column, pinb_of_code, hk, h]

theorem key_event_eq (e : Key) (s : State) (hb : s.block = 0) (hk : s.key = 0) :
    key_event e s =
      (run_key_function { s with key := e.code }).map fun t => { t with key := 0 } := by
  unfold key_event main_loop
  rw [if_pos hb]
  exact get_key_of_code _ (key_code_pos e).1 (key_code_pos e).2 s hk

/-! ## Password verification -/

/-- C1: `verify_password` sets `match` to 1 when `number[i] = password[i]` at all
four positions and to 0 when some position differs, whichever it is; the flag is
a function of `number` and `password` alone, and nothing but `match` is
written. -/
theorem C1_verify_password (s : State) :
    ((∀ i, i < 4 → s.number.get i = s.password.get i) → (verify_password s).match_ = 1) ∧
    (∀ i, i < 4 → s.number.get i ≠ s.password.get i → (verify_password s).match_ = 0) ∧
    (∀ t : State, t.number = s.number → t.password = s.password →
      (verify_password t).match_ = (verify_password s).match_) ∧
    verify_password s = { s with match_ := (verify_password s).match_ } := by
  refine ⟨?_, ?_, ?_, ?_⟩
  · intro h
    have e : s.number = s.password := by
      have h0 := h 0 (by decide)
      have h1 := h 1 (by decide)
      have h2 := h 2 (by decide)
      have h3 := h 3 (by decide)
      cases hn : s.number
      cases hp : s.password
      simp only [hn, hp, Arr4.get] at h0 h1 h2 h3
      simp [h0, h1, h2, h3]
    simp [verify_password_eq, e]
  · intro i hi hne
    have e : s.number ≠ s.password := by
      intro e
      exact hne (by rw [e])
    simp [verify_password_eq, e]
  · intro t hn hp
    simp [verify_password_eq, hn, hp]
  · simp [verify_password_eq]

/-! ## Single key events -/

theorem key_event_digit (d : Fin 10) (s : State) (hb : s.block = 0) (hk : s.key = 0)
    (hi : s.index < 4) :
    key_event (.digit d) s =
      some { s with number := s.number.set s.index d.val, index := s.index + 1 } := by
  rw [key_event_eq _ _ hb hk]
  have hmod : (s.index + 1) % 256 = s.index + 1 := by omega
  obtain ⟨d, hd⟩ := d
  cases s
  simp only at hk hi hmod
  subst hk
  interval_cases d <;>
    simp [Key.code, run_key_function, digit_case, number_store, hi, hmod]

theorem key_event_digit_full (d : Fin 10) (s : State) (hb : s.block = 0) (hk : s.key = 0)
    (hi : ¬ s.index < 4) : key_event (.digit d) s = none := by
  rw [key_event_eq _ _ hb hk]
  obtain ⟨d, hd⟩ := d
  interval_cases d <;>
    simp [Key.code, run_key_function, digit_case, number_store, hi]

theorem open_close_case_key (s : State) (k : Nat) :
    open_close_case { s with key := k } = { open_close_case s with key := k } := by
  cases s
  simp only [open_close_case, verify_password, send_sms, EEPROM_write]
  split_ifs <;> rfl

theorem key_event_open_close (s : State) (hb : s.block = 0) (hk : s.key = 0) :
    key_event .open_close s = some { open_close_case s with key := 0 } := by
  rw [key_event_eq _ _ hb hk]
  simp [Key.code, run_key_function, open_close_case_key]

theorem open_close_case_match (s : State) (h : s.number = s.password) :
    open_close_case s =
      if s.open_ = 0 then
        { s with match_ := 1, open_ := 1, OUT_PORT := s.OUT_PORT ||| 0x01,
                 miss_match := 0, index := 0 }
      else
        { s with match_ := 0, open_ := 0, OUT_PORT := s.OUT_PORT &&& 0xFE,
                 number := Arr4.sentinel, miss_match := 0, index := 0 } := by
  simp only [open_close_case, verify_password_eq, h, if_true]
  split_ifs <;> rfl

theorem open_close_case_fail (s : State) (h : s.number ≠ s.password) :
    open_close_case s =
      if (s.miss_match + 1) % 256 = 3 then
        { s with match_ := 0, miss_match := (s.miss_match + 1) % 256,
                 number := Arr4.sentinel, block := 1,
                 OUT_PORT := ((((s.OUT_PORT ||| 0x02) &&& 0x1F) ||| 0x20) &&& 0xFD),
                 sms_sent := s.sms_sent + 1,
                 eeprom := Function.update s.eeprom 10 1,
                 TCCR1B := 0x0D, index := 0 }
      else
        { s with match_ := 0, miss_match := (s.miss_match + 1) % 256,
                 number := Arr4.sentinel,
                 OUT_PORT :=
                   (((((s.OUT_PORT ||| 0x02) &&& 0x1F) ||| 0x40) &&& 0xFD) &&& 0x1F) ||| 0x80,
                 index := 0 } := by
  have e : verify_password s = { s with match_ := 0 } := by
    simp [verify_password_eq, h]
  simp only [open_close_case, e, send_sms, EEPROM_write, Nat.zero_ne_one, if_false]
  split_ifs <;> rfl

/-! ## Bits of `OUT_PORT` -/

theorem mod_two_of_testBit (x : Nat) : x % 2 = if x.testBit 0 then 1 else 0 := by
  rw [Nat.testBit_zero]
  by_cases h : x % 2 = 1
  · simp [h]
  · have : x % 2 = 0 := by omega
    simp [this]

/-- Bit 0 after `|= m`. -/
theorem lor_mod_two (x m : Nat) :
    (x ||| m) % 2 = if x % 2 = 1 ∨ m % 2 = 1 then 1 else 0 := by
  rw [mod_two_of_testBit, Nat.testBit_lor, Nat.testBit_zero, Nat.testBit_zero]
  by_cases h1 : x % 2 = 1 <;> by_cases h2 : m % 2 = 1 <;> simp [h1, h2]

/-- Bit 0 after `&= m`. -/
theorem land_mod_two (x m : Nat) :
    (x &&& m) % 2 = if x % 2 = 1 ∧ m % 2 = 1 then 1 else 0 := by
  rw [mod_two_of_testBit, Nat.testBit_land, Nat.testBit_zero, Nat.testBit_zero]
  by_cases h1 : x % 2 = 1 <;> by_cases h2 : m % 2 = 1 <;> simp [h1, h2]

theorem relay_eq (s : State) : s.relay = decide (s.OUT_PORT % 2 = 1) := by
  simp [State.relay, Nat.testBit_zero]

/-! ## Open and close with the right code -/

/-- C2: from a closed, unlocked device between scans with an empty entry
(`index = 0`), the four digit keys of the credential and then open/close assert the
relay and leave `open = 1`, `match = 1`, `miss_match = 0`; a second open/close
deasserts the relay, gives `open = 0` and an empty entry buffer. -/
theorem C2_open_then_close (d0 d1 d2 d3 : Fin 10) (s : State)
    (hb : s.block = 0) (hk : s.key = 0) (ho : s.open_ = 0) (hi : s.index = 0)
    (hp : s.password = ⟨d0.val, d1.val, d2.val, d3.val⟩) :
    ∃ s1, key_events [.digit d0, .digit d1, .digit d2, .digit d3, .open_close] s = some s1 ∧
      s1.relay = true ∧ s1.open_ = 1 ∧ s1.match_ = 1 ∧ s1.miss_match = 0 ∧ s1.block = 0 ∧
      ∃ s2, key_event .open_close s1 = some s2 ∧
        s2.relay = false ∧ s2.open_ = 0 ∧ s2.block = 0 ∧
        s2.index = 0 ∧ s2.number = Arr4.sentinel := by
  obtain ⟨key, number, index, password, show_, open_, match_, miss_match, block, wait,
    OUT_PORT, TCCR1B, eeprom, sms_sent⟩ := s
  simp only at hb hk ho hi hp
  subst hb hk ho hi hp
  simp [key_events, key_event_digit, key_event_open_close, open_close_case_match,
    Arr4.set, relay_eq, lor_mod_two, land_mod_two]

/-- An instance: the credential 1, 2, 3, 4, right after power-on. -/
theorem C2_open_then_close_witness :
    (main_init eeprom_1234).block = 0 ∧ (main_init eeprom_1234).key = 0 ∧
    (main_init eeprom_1234).open_ = 0 ∧ (main_init eeprom_1234).index = 0 ∧
    (main_init eeprom_1234).password = ⟨1, 2, 3, 4⟩ ∧
    ∃ s1, key_events [.digit 1, .digit 2, .digit 3, .digit 4, .open_close]
        (main_init eeprom_1234) = some s1 ∧
      s1.relay = true ∧ s1.open_ = 1 ∧ s1.match_ = 1 ∧ s1.miss_match = 0 ∧ s1.block = 0 ∧
      ∃ s2, key_event .open_close s1 = some s2 ∧
        s2.relay = false ∧ s2.open_ = 0 ∧ s2.block = 0 ∧
        s2.index = 0 ∧ s2.number = Arr4.sentinel :=
  ⟨rfl, rfl, rfl, rfl, rfl,
    C2_open_then_close 1 2 3 4 (main_init eeprom_1234) rfl rfl rfl rfl rfl⟩

/-! ## Typing digits -/

/-- Digit keys change nothing but the entry buffer. -/
theorem key_events_digits_frame (ds : List (Fin 10)) :
    ∀ s a : State, s.block = 0 → s.key = 0 →
      key_events (ds.map Key.digit) s = some a →
      a.block = 0 ∧ a.key = 0 ∧ a.miss_match = s.miss_match ∧ a.OUT_PORT = s.OUT_PORT ∧
      a.sms_sent = s.sms_sent ∧ a.eeprom = s.eeprom ∧ a.password = s.password ∧
      a.open_ = s.open_ ∧ a.TCCR1B = s.TCCR1B ∧ a.wait = s.wait ∧ a.match_ = s.match_ ∧
      a.show_ = s.show_ ∧ a.index = s.index + ds.length := by
  induction ds with
  | nil =>
    intro s a hb hk h
    simp only [List.map_nil, key_events, Option.some.injEq] at h
    subst h
    simp [hb, hk]
  | cons d ds ih =>
    intro s a hb hk h
    by_cases hi : s.index < 4
    · simp only [List.map_cons, key_events, key_event_digit d s hb hk hi, Option.some_bind] at h
      have := ih _ a (by exact hb) (by exact hk) h
      simp only at this
      refine ⟨this.1, this.2.1, ?_⟩
      simp [this]
      omega
    · simp [key_events, key_event_digit_full d s hb hk hi] at h

/-- Digit keys are all accepted while the entry buffer has room for them. -/
theorem key_events_digits_some (ds : List (Fin 10)) :
    ∀ s : State, s.block = 0 → s.key = 0 → s.index + ds.length ≤ 4 →
      ∃ a, key_events (ds.map Key.digit) s = some a := by
  induction ds with
  | nil => intro s _ _ _; exact ⟨s, rfl⟩
  | cons d ds ih =>
    intro s hb hk hl
    simp only [List.length_cons] at hl
    have hi : s.index < 4 := by omega
    simp only [List.map_cons, key_events, key_event_digit d s hb hk hi, Option.some_bind]
    exact ih _ (by exact hb) (by exact hk) (by simp only; omega)

/-! ## Failed attempts and lockout entry -/

/-- One failed attempt: digits, then an open/close that does not verify. -/
theorem failed_attempt (ds : List (Fin 10)) (s a : State)
    (hb : s.block = 0) (hk : s.key = 0) (hr : s.relay = false)
    (hrun : key_events (ds.map Key.digit) s = some a) (hne : a.number ≠ a.password) :
    a.relay = false ∧
    ∃ b, key_event .open_close a = some b ∧ b.relay = false ∧ b.key = 0 ∧
      b.miss_match = (s.miss_match + 1) % 256 ∧
      (if (s.miss_match + 1) % 256 = 3 then
        b.block = 1 ∧ b.eeprom 10 = 1 ∧ b.sms_sent = s.sms_sent + 1
      else b.block = 0 ∧ b.eeprom = s.eeprom ∧ b.sms_sent = s.sms_sent) := by
  obtain ⟨fb, fk, fm, fo, fs, fe, -, -, -, -, -, -, -⟩ :=
    key_events_digits_frame ds s a hb hk hrun
  have hra : a.relay = false := by
    rw [relay_eq] at hr ⊢
    rw [fo]
    exact hr
  have hodd : ¬ a.OUT_PORT % 2 = 1 := by
    rw [relay_eq] at hra
    simpa using hra
  refine ⟨hra, _, key_event_open_close a fb fk, ?_⟩
  rw [open_close_case_fail a hne, fm]
  by_cases h3 : (s.miss_match + 1) % 256 = 3
  · simp [h3, relay_eq, lor_mod_two, land_mod_two, hodd, fs]
  · simp [h3, relay_eq, lor_mod_two, land_mod_two, hodd, fs, fe, fb]

/-- C3: from an unlocked state between scans with `miss_match = 0` and the relay
off, three open/close events that each fail verification, with any accepted digit
keys typed before each: the first two leave the device unlocked, the third sets
`block = 1` and stores it at EEPROM address 10; `send_sms` is called on the third
failure and not before; the relay stays off at every step. -/
theorem C3_three_failures (s : State)
    (hb : s.block = 0) (hk : s.key = 0) (hm : s.miss_match = 0) (hr : s.relay = false) :
    ∀ (ds1 : List (Fin 10)) (a1 : State),
      key_events (ds1.map Key.digit) s = some a1 → a1.number ≠ a1.password →
      a1.relay = false ∧
      ∃ b1, key_event .open_close a1 = some b1 ∧
        b1.block = 0 ∧ b1.sms_sent = s.sms_sent ∧ b1.relay = false ∧
        ∀ (ds2 : List (Fin 10)) (a2 : State),
          key_events (ds2.map Key.digit) b1 = some a2 → a2.number ≠ a2.password →
          a2.relay = false ∧
          ∃ b2, key_event .open_close a2 = some b2 ∧
            b2.block = 0 ∧ b2.sms_sent = s.sms_sent ∧ b2.relay = false ∧
            ∀ (ds3 : List (Fin 10)) (a3 : State),
              key_events (ds3.map Key.digit) b2 = some a3 → a3.number ≠ a3.password →
              a3.relay = false ∧ a3.sms_sent = s.sms_sent ∧
              ∃ b3, key_event .open_close a3 = some b3 ∧
                b3.block = 1 ∧ b3.eeprom 10 = 1 ∧ b3.sms_sent = s.sms_sent + 1 ∧
                b3.relay = false := by
  intro ds1 a1 h1 n1
  obtain ⟨ra1, b1, e1, rb1, kb1, mb1, c1⟩ := failed_attempt ds1 s a1 hb hk hr h1 n1
  rw [hm] at mb1 c1
  simp only [Nat.zero_add, Nat.one_mod, OfNat.ofNat_ne_one, if_false] at c1
  norm_num at c1
  obtain ⟨bb1, -, sb1⟩ := c1
  refine ⟨ra1, b1, e1, bb1, sb1, rb1, ?_⟩
  intro ds2 a2 h2 n2
  obtain ⟨ra2, b2, e2, rb2, kb2, mb2, c2⟩ := failed_attempt ds2 b1 a2 bb1 kb1 rb1 h2 n2
  rw [mb1] at mb2 c2
  norm_num at mb2 c2
  obtain ⟨bb2, -, sb2⟩ := c2
  refine ⟨ra2, b2, e2, bb2, sb2.trans sb1, rb2, ?_⟩
  intro ds3 a3 h3 n3
  obtain ⟨ra3, b3, e3, rb3, -, -, c3⟩ := failed_attempt ds3 b2 a3 bb2 kb2 rb2 h3 n3
  rw [mb2] at c3
  norm_num at c3
  obtain ⟨bb3, eb3, sb3⟩ := c3
  have fs3 := (key_events_digits_frame ds3 b2 a3 bb2 kb2 h3).2.2.2.2.1
  exact ⟨ra3, by rw [fs3, sb2, sb1], b3, e3, bb3, eb3, by rw [sb3, sb2, sb1], rb3⟩

/-- An instance: after power-on with the credential 1, 2, 3, 4, the code 9, 9, 9, 9
is tried, then open/close is pressed twice more on the empty buffer. -/
theorem C3_three_failures_witness :
    (main_init eeprom_1234).block = 0 ∧ (main_init eeprom_1234).key = 0 ∧
    (main_init eeprom_1234).miss_match = 0 ∧ (main_init eeprom_1234).relay = false ∧
    ∃ b1 b2 b3,
      key_events [.digit 9, .digit 9, .digit 9, .digit 9, .open_close]
        (main_init eeprom_1234) = some b1 ∧
      b1.block = 0 ∧ b1.sms_sent = 0 ∧ b1.relay = false ∧
      key_event .open_close b1 = some b2 ∧
      b2.block = 0 ∧ b2.sms_sent = 0 ∧ b2.relay = false ∧
      key_event .open_close b2 = some b3 ∧
      b3.block = 1 ∧ b3.eeprom 10 = 1 ∧ b3.sms_sent = 1 ∧ b3.relay = false := by
  refine ⟨rfl, rfl, rfl, rfl, ?_⟩
  have h := C3_three_failures (main_init eeprom_1234) rfl rfl rfl rfl
  obtain ⟨-, b1, e1, bb1, sb1, rb1, h⟩ := h [9, 9, 9, 9]
    { main_init eeprom_1234 with number := ⟨9, 9, 9, 9⟩, index := 4 } rfl (by decide)
  have n1 : b1.number ≠ b1.password := by
    rw [key_event_open_close _ rfl rfl, open_close_case_fail _ (by decide)] at e1
    simp only [Option.some.injEq] at e1
    rw [← e1]
    decide
  obtain ⟨-, b2, e2, bb2, sb2, rb2, h⟩ := h [] b1 rfl n1
  have n2 : b2.number ≠ b2.password := by
    have kb1 : b1.key = 0 := by
      rw [key_event_open_close _ rfl rfl] at e1
      simp only [Option.some.injEq] at e1
      rw [← e1]
    have pb1 : b1.password = ⟨1, 2, 3, 4⟩ := by
      rw [key_event_open_close _ rfl rfl, open_close_case_fail _ (by decide)] at e1
      simp only [Option.some.injEq] at e1
      rw [← e1]
      rfl
    rw [key_event_open_close _ bb1 kb1, open_close_case_fail _ n1] at e2
    simp only [Option.some.injEq] at e2
    rw [← e2]
    split_ifs <;> simp [pb1, Arr4.sentinel]
  obtain ⟨-, -, b3, e3, bb3, eb3, sb3, rb3⟩ := h [] b2 rfl n2
  refine ⟨b1, b2, b3, ?_, bb1, sb1, rb1, e2, bb2, sb2, rb2, e3, bb3, eb3, sb3, rb3⟩
  rw [← e1]
  rfl

/-! ## Lockout: the keypad is not served -/

/-- C4: while `block = 1` a pass of the foreground loop does not call `get_key`:
whatever the keypad reads, and for every key, the whole state (entry buffer
included) is unchanged; and a compare match that is not the expiring one leaves
`block = 1`. -/
theorem C4_locked_ignores_keys (s : State) (hb : s.block = 1) :
    (∀ pinb, main_loop pinb s = some s) ∧
    (∀ e : Key, key_event e s = some s) ∧
    ((s.wait + 1) % 65536 ≠ 10 → (block_time s).block = 1) := by
  have h0 : s.block ≠ 0 := by omega
  refine ⟨fun pinb => by simp [main_loop, h0], fun e => by simp [key_event, main_loop, h0], ?_⟩
  intro hw
  simp [block_time, hw, EEPROM_write, hb]

/-- An instance: the device powered on with a stored lockout. -/
theorem C4_locked_ignores_keys_witness :
    locked_state.block = 1 ∧
    (∀ pinb, main_loop pinb locked_state = some locked_state) ∧
    (∀ e : Key, key_event e locked_state = some locked_state) ∧
    ((locked_state.wait + 1) % 65536 ≠ 10 → (block_time locked_state).block = 1) :=
  ⟨rfl, C4_locked_ignores_keys locked_state rfl⟩

/-! ## Credential change without authorisation -/

/-- C5: with `match` not 1 the set key (case 12) does nothing: the state, and so
`password[0..3]` and the EEPROM bytes 0..3, is unchanged. -/
theorem C5_set_denied (s : State) (hk : s.key = 12) (hm : s.match_ ≠ 1) :
    ∃ t, run_key_function s = some t ∧ t.password = s.password ∧
      (∀ a, a < 4 → t.eeprom a = s.eeprom a) ∧ t = s := by
  refine ⟨s, ?_, rfl, fun _ _ => rfl, rfl⟩
  simp [run_key_function, hk, hm]

/-- An instance: the set key right after power-on. -/
theorem C5_set_denied_witness :
    ({ main_init eeprom_1234 with key := 12 } : State).key = 12 ∧
    ({ main_init eeprom_1234 with key := 12 } : State).match_ ≠ 1 ∧
    ∃ t, run_key_function { main_init eeprom_1234 with key := 12 } = some t ∧
      t.password = ({ main_init eeprom_1234 with key := 12 } : State).password ∧
      (∀ a, a < 4 → t.eeprom a = ({ main_init eeprom_1234 with key := 12 } : State).eeprom a) ∧
      t = { main_init eeprom_1234 with key := 12 } :=
  ⟨rfl, by decide, C5_set_denied { main_init eeprom_1234 with key := 12 } rfl (by decide)⟩

/-! ## The lockout timer -/

theorem block_time_running (s : State) (h : (s.wait + 1) % 65536 ≠ 10) :
    block_time s =
      { s with wait := (s.wait + 1) % 65536,
               eeprom := Function.update (Function.update s.eeprom 11
                 ((s.wait + 1) % 65536 % 256 % 256)) 12 ((s.wait + 1) % 65536 % 256 % 256) } := by
  simp [block_time, h, EEPROM_write]

theorem block_time_expiry (s : State) (h : (s.wait + 1) % 65536 = 10) :
    block_time s =
      { s with TCCR1B := 0x00, wait := 0, block := 0, miss_match := 0,
               eeprom := Function.update (Function.update
                 (Function.update s.eeprom 10 0) 11 0) 12 0,
               OUT_PORT := (s.OUT_PORT &&& 0x1F) ||| 0x80 } := by
  simp [block_time, h, EEPROM_write]

theorem ticks_succ (n : Nat) : ∀ s, ticks (n + 1) s = block_time (ticks n s) := by
  induction n with
  | zero => intro s; rfl
  | succ n ih => intro s; rw [ticks, ih (block_time s)]; rfl

theorem ticks_add (m n : Nat) (s : State) : ticks (m + n) s = ticks n (ticks m s) := by
  induction n with
  | zero => rfl
  | succ n ih => rw [← Nat.add_assoc, ticks_succ, ticks_succ, ih]

/-- While the counter does not reach 10, compare matches only advance `wait`. -/
theorem ticks_running (n : Nat) :
    ∀ s : State, (s.wait + n < 10 ∨ (10 ≤ s.wait ∧ s.wait + n < 65536)) →
      (ticks n s).block = s.block ∧ (ticks n s).wait = s.wait + n ∧
      (ticks n s).miss_match = s.miss_match ∧ (ticks n s).OUT_PORT = s.OUT_PORT ∧
      (ticks n s).TCCR1B = s.TCCR1B := by
  induction n with
  | zero => intro s _; simp [ticks]
  | succ n ih =>
    intro s h
    have hmod : (s.wait + 1) % 65536 = s.wait + 1 := by omega
    have hne : (s.wait + 1) % 65536 ≠ 10 := by omega
    have hb := block_time_running s hne
    have h1 : (block_time s).wait = s.wait + 1 := by rw [hb]; exact hmod
    have h2 : (block_time s).block = s.block := by rw [hb]
    have h3 : (block_time s).miss_match = s.miss_match := by rw [hb]
    have h4 : (block_time s).OUT_PORT = s.OUT_PORT := by rw [hb]
    have h5 : (block_time s).TCCR1B = s.TCCR1B := by rw [hb]
    obtain ⟨i1, i2, i3, i4, i5⟩ := ih (block_time s) (by rw [h1]; omega)
    rw [ticks, i1, i2, i3, i4, i5, h1, h2, h3, h4, h5]
    exact ⟨rfl, by omega, rfl, rfl, rfl⟩

/-- The state a third failed open/close leaves. -/
theorem lockout_entry (s : State) (hb : s.block = 0) (hk : s.key = 0)
    (hm : s.miss_match = 2) (hne : s.number ≠ s.password) :
    ∃ t, key_event .open_close s = some t ∧ t.block = 1 ∧ t.wait = s.wait ∧
      t.miss_match = 3 ∧ t.eeprom = Function.update s.eeprom 10 1 ∧ t.TCCR1B = 0x0D ∧
      t.password = s.password ∧ t.key = 0 := by
  refine ⟨_, key_event_open_close s hb hk, ?_⟩
  rw [open_close_case_fail s hne, hm]
  simp

/-- C8: after a third failed open/close at run time (the seconds counter `wait`
being 0, as it is whenever the device is unlocked), `block` stays 1 through the
first nine compare matches; the tenth gives `block = 0`, `miss_match = 0`,
`wait = 0` and zeroes the EEPROM bytes 10, 11 and 12. -/
theorem C8_lockout_ten_ticks (s : State) (hb : s.block = 0) (hk : s.key = 0)
    (hm : s.miss_match = 2) (hw : s.wait = 0) (hne : s.number ≠ s.password) :
    ∃ t, key_event .open_close s = some t ∧ t.block = 1 ∧
      (∀ n, n ≤ 9 → (ticks n t).block = 1) ∧
      (ticks 10 t).block = 0 ∧ (ticks 10 t).miss_match = 0 ∧ (ticks 10 t).wait = 0 ∧
      (ticks 10 t).eeprom 10 = 0 ∧ (ticks 10 t).eeprom 11 = 0 ∧
      (ticks 10 t).eeprom 12 = 0 := by
  obtain ⟨t, ht, tb, tw, -, -, -, -, -⟩ := lockout_entry s hb hk hm hne
  rw [hw] at tw
  refine ⟨t, ht, tb, ?_, ?_⟩
  · intro n hn
    rw [(ticks_running n t (Or.inl (by omega))).1, tb]
  · obtain ⟨-, w9, -, -, -⟩ := ticks_running 9 t (Or.inl (by omega))
    have hx : ((ticks 9 t).wait + 1) % 65536 = 10 := by rw [w9, tw]
    rw [ticks_succ 9 t, block_time_expiry _ hx]
    simp [Function.update]

/-- An instance: the credential 1, 2, 3, 4, the empty buffer, two failures so far. -/
theorem C8_lockout_ten_ticks_witness :
    ({ main_init eeprom_1234 with miss_match := 2 } : State).block = 0 ∧
    ({ main_init eeprom_1234 with miss_match := 2 } : State).key = 0 ∧
    ({ main_init eeprom_1234 with miss_match := 2 } : State).miss_match = 2 ∧
    ({ main_init eeprom_1234 with miss_match := 2 } : State).wait = 0 ∧
    ({ main_init eeprom_1234 with miss_match := 2 } : State).number ≠
      ({ main_init eeprom_1234 with miss_match := 2 } : State).password ∧
    ∃ t, key_event .open_close { main_init eeprom_1234 with miss_match := 2 } = some t ∧
      t.block = 1 ∧
      (∀ n, n ≤ 9 → (ticks n t).block = 1) ∧
      (ticks 10 t).block = 0 ∧ (ticks 10 t).miss_match = 0 ∧ (ticks 10 t).wait = 0 ∧
      (ticks 10 t).eeprom 10 = 0 ∧ (ticks 10 t).eeprom 11 = 0 ∧
      (ticks 10 t).eeprom 12 = 0 :=
  ⟨rfl, rfl, rfl, rfl, by decide,
    C8_lockout_ten_ticks { main_init eeprom_1234 with miss_match := 2 } rfl rfl rfl rfl
      (by decide)⟩

/-! ## Lockout across a reboot -/

/-- What the running timer has stored after `n ≥ 1` compare matches: the low byte
of `wait` at both address 11 and address 12. -/
theorem ticks_running_eeprom (n : Nat) (s : State)
    (h : s.wait + (n + 1) < 10 ∨ (10 ≤ s.wait ∧ s.wait + (n + 1) < 65536)) :
    (ticks (n + 1) s).eeprom 11 = (s.wait + (n + 1)) % 256 ∧
    (ticks (n + 1) s).eeprom 12 = (s.wait + (n + 1)) % 256 ∧
    (ticks (n + 1) s).eeprom 10 = s.eeprom 10 := by
  have hn : s.wait + n < 10 ∨ (10 ≤ s.wait ∧ s.wait + n < 65536) := by omega
  obtain ⟨-, w, -, -, -⟩ := ticks_running n s hn
  have hne : ((ticks n s).wait + 1) % 65536 ≠ 10 := by rw [w]; omega
  have hmod : (s.wait + n + 1) % 65536 = s.wait + (n + 1) := by omega
  have e10 : ∀ m : Nat, ∀ u : State,
      (u.wait + m < 10 ∨ (10 ≤ u.wait ∧ u.wait + m < 65536)) →
      (ticks m u).eeprom 10 = u.eeprom 10 := by
    intro m
    induction m with
    | zero => intro u _; rfl
    | succ m ih =>
      intro u hu
      obtain ⟨-, wm, -, -, -⟩ := ticks_running m u (by omega)
      have hne : ((ticks m u).wait + 1) % 65536 ≠ 10 := by rw [wm]; omega
      rw [ticks_succ, block_time_running _ hne]
      simp only [Function.update, eq_rec_constant, dite_eq_ite]
      simp [ih u (by omega)]
  refine ⟨?_, ?_, e10 (n + 1) s h⟩
  · rw [ticks_succ, block_time_running _ hne, w, hmod]
    simp [Function.update]
  · rw [ticks_succ, block_time_running _ hne, w, hmod]
    simp [Function.update]

/-- The elapsed time `main` resumes with after `E` ticks of a lockout (`1 ≤ E ≤ 9`)
and a reboot is `257 * E`, not `E`. -/
theorem reboot_resumes_at (E : Nat) (t : State) (h1 : 1 ≤ E) (h9 : E ≤ 9)
    (hw : t.wait = 0) (he : t.eeprom 10 = 1) :
    (reboot (ticks E t)).block = 1 ∧ (reboot (ticks E t)).wait = 257 * E := by
  obtain ⟨n, rfl⟩ : ∃ n, E = n + 1 := ⟨E - 1, by omega⟩
  obtain ⟨e11, e12, e10⟩ := ticks_running_eeprom n t (Or.inl (by omega))
  rw [hw] at e11 e12
  rw [he] at e10
  have hm : (0 + (n + 1)) % 256 = n + 1 := by omega
  rw [hm] at e11 e12
  have hm2 : (n + 1) % 256 = n + 1 := by omega
  constructor
  · simp [reboot, main_init, EEPROM_read, e10]
  · have hlt2 : n + 1 < 128 := by omega
    simp only [reboot, main_init, EEPROM_read, e10, e11, e12, char_to_uint, hm2, hlt2]
    simp
    omega

/-- A lockout resumed with `wait` at or beyond 10 runs until the 16-bit counter has
wrapped round and counted up to 10 again. -/
theorem resumed_lockout_length (r : State) (hb : r.block = 1)
    (h10 : 10 ≤ r.wait) (hlt : r.wait < 65536) :
    (∀ n, n ≤ 65545 - r.wait → (ticks n r).block = 1) ∧
    (ticks (65546 - r.wait) r).block = 0 := by
  obtain ⟨ub, uw, -, -, -⟩ := ticks_running (65535 - r.wait) r (Or.inr ⟨h10, by omega⟩)
  have uw2 : (ticks (65535 - r.wait) r).wait = 65535 := by omega
  have hne : ((ticks (65535 - r.wait) r).wait + 1) % 65536 ≠ 10 := by rw [uw2]; decide
  have hv := block_time_running _ hne
  have vw : (block_time (ticks (65535 - r.wait) r)).wait = 0 := by rw [hv, uw2]
  have vb : (block_time (ticks (65535 - r.wait) r)).block = 1 := by rw [hv, ub, hb]
  constructor
  · intro n hn
    by_cases hc : n ≤ 65535 - r.wait
    · rw [(ticks_running n r (Or.inr ⟨h10, by omega⟩)).1, hb]
    · obtain ⟨k, rfl⟩ : ∃ k, n = (65535 - r.wait) + 1 + k := ⟨n - (65535 - r.wait) - 1, by omega⟩
      rw [ticks_add, ticks_succ,
        (ticks_running k _ (Or.inl (by rw [vw]; omega))).1, vb]
  · have e : 65546 - r.wait = (65535 - r.wait) + 1 + (9 + 1) := by omega
    obtain ⟨-, w9, -, -, -⟩ := ticks_running 9 (block_time (ticks (65535 - r.wait) r))
      (Or.inl (by rw [vw]; decide))
    have hx : ((ticks 9 (block_time (ticks (65535 - r.wait) r))).wait + 1) % 65536 = 10 := by
      rw [w9, vw]
    rw [e, ticks_add, ticks_succ (65535 - r.wait), ticks_succ 9, block_time_expiry _ hx]

/-- A failed open/close on its own. -/
theorem failed_open_close (s : State) (hb : s.block = 0) (hk : s.key = 0)
    (hne : s.number ≠ s.password) :
    ∃ b, key_event .open_close s = some b ∧ b.key = 0 ∧ b.number = Arr4.sentinel ∧
      b.password = s.password ∧ b.wait = s.wait ∧ b.index = 0 ∧
      b.miss_match = (s.miss_match + 1) % 256 ∧
      (if (s.miss_match + 1) % 256 = 3 then
        b.block = 1 ∧ b.eeprom = Function.update s.eeprom 10 1
      else b.block = 0 ∧ b.eeprom = s.eeprom) := by
  refine ⟨_, key_event_open_close s hb hk, ?_⟩
  rw [open_close_case_fail s hne]
  by_cases h3 : (s.miss_match + 1) % 256 = 3
  · simp [h3]
  · simp [h3, hb]

/-- C6, at E = 1: the device (credential 1, 2, 3, 4) is locked by three failed
open/close events, one compare match stores the elapsed time as the bytes 1 and 1
at addresses 11 and 12, and the device is rebooted. `main` resumes with
`wait = 257`; the lockout is still active after the 9 further ticks that remain of
its 10, and for 65288 ticks in all; it ends at the 65289th. -/
theorem C6_resume_elapsed_lost :
    ∃ t, key_events [.open_close, .open_close, .open_close] (main_init eeprom_1234) = some t ∧
      t.block = 1 ∧ t.wait = 0 ∧
      (ticks 1 t).block = 1 ∧ (ticks 1 t).wait = 1 ∧
      (ticks 1 t).eeprom 10 = 1 ∧ (ticks 1 t).eeprom 11 = 1 ∧ (ticks 1 t).eeprom 12 = 1 ∧
      (reboot (ticks 1 t)).block = 1 ∧ (reboot (ticks 1 t)).wait = 257 ∧
      (ticks 9 (reboot (ticks 1 t))).block = 1 ∧
      (∀ n, n ≤ 65288 → (ticks n (reboot (ticks 1 t))).block = 1) ∧
      (ticks 65289 (reboot (ticks 1 t))).block = 0 := by
  have n0 : (main_init eeprom_1234).number ≠ (main_init eeprom_1234).password := by decide
  obtain ⟨b1, e1, k1, n1, p1, w1, -, m1, c1⟩ :=
    failed_open_close (main_init eeprom_1234) rfl rfl n0
  have hm0 : ((main_init eeprom_1234).miss_match + 1) % 256 = 1 := rfl
  rw [hm0] at m1 c1
  simp only [OfNat.one_ne_ofNat, if_false] at c1
  have hp : (main_init eeprom_1234).password = ⟨1, 2, 3, 4⟩ := rfl
  have hsp : Arr4.sentinel ≠ (⟨1, 2, 3, 4⟩ : Arr4) := by decide
  obtain ⟨b2, e2, k2, n2, p2, w2, -, m2, c2⟩ :=
    failed_open_close b1 c1.1 k1 (by rw [n1, p1, hp]; exact hsp)
  rw [m1] at m2 c2
  norm_num at m2 c2
  obtain ⟨t, e3, k3, n3, p3, w3, -, m3, c3⟩ :=
    failed_open_close b2 c2.1 k2 (by rw [n2, p2, p1, hp]; exact hsp)
  rw [m2] at m3 c3
  norm_num at m3 c3
  have tw : t.wait = 0 := by rw [w3, w2, w1]; rfl
  have te : t.eeprom 10 = 1 := by rw [c3.2]; simp
  obtain ⟨rb, rw_⟩ := reboot_resumes_at 1 t (by decide) (by decide) tw te
  obtain ⟨tb1, tw1, -, -, -⟩ := ticks_running 1 t (Or.inl (by omega))
  obtain ⟨e11, e12, e10⟩ := ticks_running_eeprom 0 t (Or.inl (by omega))
  have hlen := resumed_lockout_length (reboot (ticks 1 t)) rb (by omega) (by omega)
  rw [rw_] at hlen
  refine ⟨t, by simp [key_events, e1, e2, e3], c3.1, tw, by rw [tb1, c3.1], by rw [tw1, tw],
    by rw [e10, te], by rw [e11, tw], by rw [e12, tw], rb, rw_, hlen.1 9 (by decide),
    hlen.1, hlen.2⟩

/-! ## Credentials with bytes that are not digits -/

/-- C7 fails for the sentinel: with the stored credential bytes 10, 10, 10, 10 the
empty entry buffer verifies, and open/close right after power-on asserts the
relay. -/
theorem C7_sentinel_credential_opens :
    (main_init eeprom_sentinel).password = ⟨10, 10, 10, 10⟩ ∧
    (main_init eeprom_sentinel).number = Arr4.sentinel ∧
    (main_init eeprom_sentinel).index = 0 ∧
    (main_init eeprom_sentinel).match_ = 0 ∧
    (main_init eeprom_sentinel).relay = false ∧
    ∃ t, key_event .open_close (main_init eeprom_sentinel) = some t ∧
      t.match_ = 1 ∧ t.open_ = 1 ∧ t.relay = true := by
  refine ⟨rfl, rfl, rfl, rfl, rfl, _, key_event_open_close _ rfl rfl, ?_⟩
  rw [open_close_case_match _ (by decide)]
  decide

/-- Every store into `number` by a key function writes a digit or 10. -/
theorem run_key_function_number_le (s t : State) (h : run_key_function s = some t)
    (hn : ∀ i, i < 4 → s.number.get i ≤ 10) : ∀ i, i < 4 → t.number.get i ≤ 10 := by
  have hset : ∀ (a : Arr4) (j v : Nat), v ≤ 10 → (∀ i, i < 4 → a.get i ≤ 10) →
      ∀ i, i < 4 → (a.set j v).get i ≤ 10 := by
    intro a j v hv ha i hi
    have h0 := ha 0 (by decide)
    have h1 := ha 1 (by decide)
    have h2 := ha 2 (by decide)
    have h3 := ha 3 (by decide)
    simp only [Arr4.get] at h0 h1 h2 h3
    unfold Arr4.set
    split <;> interval_cases i <;> simp [Arr4.get, hv, h0, h1, h2, h3]
  have hsen : ∀ i, i < 4 → Arr4.sentinel.get i ≤ 10 := by
    intro i hi
    interval_cases i <;> simp [Arr4.get, Arr4.sentinel]
  have hdig : ∀ d, d ≤ 10 → digit_case d s = some t → ∀ i, i < 4 → t.number.get i ≤ 10 := by
    intro d hd h
    unfold digit_case number_store at h
    split_ifs at h
    · simp only [Option.map_some', Option.some.injEq] at h
      rw [← h]
      exact hset _ _ _ hd hn
    · simp at h
  unfold run_key_function at h
  split at h
  all_goals first
    | exact hdig _ (by decide) h
    | skip
  · simp only [number_store] at h
    split_ifs at h
    · simp only [Option.map_some', Option.some.injEq] at h
      rw [← h]
      exact hset _ _ _ (by decide) hn
    · simp at h
  · split_ifs at h <;> simp only [Option.some.injEq] at h <;> rw [← h]
    · exact hsen
    · exact hn
  · split_ifs at h <;> simp only [Option.some.injEq, EEPROM_write] at h <;> rw [← h] <;> exact hn
  · simp only [Option.some.injEq] at h
    rw [← h]
    exact hsen
  · simp only [Option.some.injEq] at h
    rw [← h]
    exact hn
  · simp only [Option.some.injEq] at h
    rw [← h]
    by_cases e : s.number = s.password
    · rw [open_close_case_match s e]
      split_ifs
      · exact hn
      · exact hsen
    · rw [open_close_case_fail s e]
      split_ifs <;> exact hsen
  · simp only [Option.some.injEq] at h
    rw [← h]
    exact hn

/-- C7, amended: if a stored credential byte is above 10 (neither a digit nor the
value 10 of an empty slot), then for every entry buffer whose cells are digits or
10 the open/close verification fails: `match` is 0 afterwards, and the relay and
`open` are as before. -/
theorem C7_credential_above_ten (s : State) (hb : s.block = 0) (hk : s.key = 0)
    (hn : ∀ i, i < 4 → s.number.get i ≤ 10) (hp : ∃ i, i < 4 ∧ 10 < s.password.get i) :
    ∃ t, key_event .open_close s = some t ∧ t.match_ = 0 ∧ t.relay = s.relay ∧
      t.open_ = s.open_ := by
  have hne : s.number ≠ s.password := by
    obtain ⟨i, hi, hgt⟩ := hp
    intro e
    have := hn i hi
    rw [e] at this
    omega
  refine ⟨_, key_event_open_close s hb hk, ?_⟩
  rw [open_close_case_fail s hne]
  by_cases h3 : (s.miss_match + 1) % 256 = 3 <;>
    by_cases hodd : s.OUT_PORT % 2 = 1 <;>
    simp [h3, relay_eq, lor_mod_two, land_mod_two, hodd]

/-- An instance: erased credential bytes (0xFF) and the empty buffer. -/
theorem C7_credential_above_ten_witness :
    (main_init eeprom_erased_credential).block = 0 ∧
    (main_init eeprom_erased_credential).key = 0 ∧
    (∀ i, i < 4 → (main_init eeprom_erased_credential).number.get i ≤ 10) ∧
    (∃ i, i < 4 ∧ 10 < (main_init eeprom_erased_credential).password.get i) ∧
    ∃ t, key_event .open_close (main_init eeprom_erased_credential) = some t ∧
      t.match_ = 0 ∧ t.relay = (main_init eeprom_erased_credential).relay ∧
      t.open_ = (main_init eeprom_erased_credential).open_ :=
  ⟨rfl, rfl, by decide, ⟨0, by decide, by decide⟩,
    C7_credential_above_ten (main_init eeprom_erased_credential) rfl rfl (by decide)
      ⟨0, by decide, by decide⟩⟩

/-! ## Open/close with the door open -/

/-- C9 fails: with the door open after the code 1, 2, 3, 4, the digit 9 is typed
and open/close pressed: the relay stays asserted, `open` stays 1 and `miss_match`
goes from 0 to 1. When the code is then typed again and open/close pressed, the
door closes and `miss_match` goes from 1 to 0 rather than staying as it was. -/
theorem C9_open_close_reverifies :
    ∃ a, key_events [.digit 1, .digit 2, .digit 3, .digit 4, .open_close, .digit 9]
        (main_init eeprom_1234) = some a ∧
      a.block = 0 ∧ a.open_ = 1 ∧ a.relay = true ∧ a.miss_match = 0 ∧
      ∃ t, key_event .open_close a = some t ∧
        t.relay = true ∧ t.open_ = 1 ∧ t.miss_match = 1 ∧
        ∃ a2, key_events [.digit 1, .digit 2, .digit 3, .digit 4] t = some a2 ∧
          a2.block = 0 ∧ a2.open_ = 1 ∧ a2.miss_match = 1 ∧
          ∃ t2, key_event .open_close a2 = some t2 ∧
            t2.relay = false ∧ t2.open_ = 0 ∧ t2.miss_match = 0 := by
  have h0 : main_init eeprom_1234 =
      { key := 0, number := ⟨10, 10, 10, 10⟩, index := 0, password := ⟨1, 2, 3, 4⟩,
        show_ := 1, open_ := 0, match_ := 0, miss_match := 0, block := 0, wait := 0,
        OUT_PORT := 0x80, TCCR1B := 0x00, eeprom := eeprom_1234, sms_sent := 0 } := rfl
  have v3 : ((3 : Fin 10) : Nat) = 3 := rfl
  have v4 : ((4 : Fin 10) : Nat) = 4 := rfl
  have v9 : ((9 : Fin 10) : Nat) = 9 := rfl
  rw [h0]
  simp [key_events, key_event_digit, key_event_open_close, open_close_case_match,
    open_close_case_fail, Arr4.set, Arr4.sentinel, relay_eq, v3, v4, v9]
  rfl

/-- C9, amended: with the door open (`open` not 0), open/close verifies the entry
buffer first. If it equals the credential the relay is deasserted, the buffer is
emptied, `match` is cleared, `miss_match` is set to 0 and `open` becomes 0. If it
differs, the event is a failed attempt: relay and `open` are as before, the buffer
is emptied and `miss_match` is incremented. -/
theorem C9_open_close_door_open (s : State) (hb : s.block = 0) (hk : s.key = 0)
    (ho : s.open_ ≠ 0) :
    (s.number = s.password →
      ∃ t, key_event .open_close s = some t ∧ t.relay = false ∧
        t.number = Arr4.sentinel ∧ t.index = 0 ∧ t.match_ = 0 ∧ t.miss_match = 0 ∧
        t.open_ = 0 ∧ t.block = 0) ∧
    (s.number ≠ s.password →
      ∃ t, key_event .open_close s = some t ∧ t.relay = s.relay ∧ t.open_ = s.open_ ∧
        t.number = Arr4.sentinel ∧ t.index = 0 ∧ t.match_ = 0 ∧
        t.miss_match = (s.miss_match + 1) % 256) := by
  constructor
  · intro e
    refine ⟨_, key_event_open_close s hb hk, ?_⟩
    rw [open_close_case_match s e]
    simp [ho, relay_eq, land_mod_two, hb]
  · intro e
    refine ⟨_, key_event_open_close s hb hk, ?_⟩
    rw [open_close_case_fail s e]
    by_cases h3 : (s.miss_match + 1) % 256 = 3 <;>
      by_cases hodd : s.OUT_PORT % 2 = 1 <;>
      simp [h3, relay_eq, lor_mod_two, land_mod_two, hodd]

/-- An instance: the door opened with the code 1, 2, 3, 4 after power-on. -/
theorem C9_open_close_door_open_witness :
    door_open_state.block = 0 ∧ door_open_state.key = 0 ∧ door_open_state.open_ ≠ 0 ∧
    key_events [.digit 1, .digit 2, .digit 3, .digit 4, .open_close]
      (main_init eeprom_1234) = some door_open_state ∧
    (door_open_state.number = door_open_state.password →
      ∃ t, key_event .open_close door_open_state = some t ∧ t.relay = false ∧
        t.number = Arr4.sentinel ∧ t.index = 0 ∧ t.match_ = 0 ∧ t.miss_match = 0 ∧
        t.open_ = 0 ∧ t.block = 0) ∧
    (door_open_state.number ≠ door_open_state.password →
      ∃ t, key_event .open_close door_open_state = some t ∧
        t.relay = door_open_state.relay ∧ t.open_ = door_open_state.open_ ∧
        t.number = Arr4.sentinel ∧ t.index = 0 ∧ t.match_ = 0 ∧
        t.miss_match = (door_open_state.miss_match + 1) % 256) := by
  refine ⟨rfl, rfl, by decide, ?_, C9_open_close_door_open door_open_state rfl rfl (by decide)⟩
  have v3 : ((3 : Fin 10) : Nat) = 3 := rfl
  have v4 : ((4 : Fin 10) : Nat) = 4 := rfl
  have h0 : main_init eeprom_1234 =
      { key := 0, number := ⟨10, 10, 10, 10⟩, index := 0, password := ⟨1, 2, 3, 4⟩,
        show_ := 1, open_ := 0, match_ := 0, miss_match := 0, block := 0, wait := 0,
        OUT_PORT := 0x80, TCCR1B := 0x00, eeprom := eeprom_1234, sms_sent := 0 } := rfl
  simp only [door_open_state]
  rw [h0]
  simp [key_events, key_event_digit, key_event_open_close, open_close_case_match,
    Arr4.set, v3, v4]

/-! ## The failure counter -/

/-- C10: in an unlocked state between scans (with `miss_match` below the `char`
overflow), a failed open/close adds exactly 1 to `miss_match`, a successful one
sets it to 0, and every other key that is served leaves it as it was; reset is
always served and clear is served when the entry buffer is not empty. A compare
match leaves `miss_match` as it was unless it is the expiring one, which sets it
to 0. -/
theorem C10_failure_counter (s : State) (hb : s.block = 0) (hk : s.key = 0)
    (hlt : s.miss_match < 127) :
    (s.number ≠ s.password →
      ∃ t, key_event .open_close s = some t ∧ t.miss_match = s.miss_match + 1) ∧
    (s.number = s.password →
      ∃ t, key_event .open_close s = some t ∧ t.miss_match = 0) ∧
    (∀ e : Key, e ≠ .open_close → ∀ t, key_event e s = some t →
      t.miss_match = s.miss_match) ∧
    (∃ t, key_event .reset s = some t ∧ t.miss_match = s.miss_match) ∧
    (1 ≤ s.index → s.index ≤ 4 →
      ∃ t, key_event .clear s = some t ∧ t.miss_match = s.miss_match) ∧
    ((s.wait + 1) % 65536 ≠ 10 → (block_time s).miss_match = s.miss_match) ∧
    ((s.wait + 1) % 65536 = 10 → (block_time s).miss_match = 0) := by
  have hmod : (s.miss_match + 1) % 256 = s.miss_match + 1 := by omega
  refine ⟨?_, ?_, ?_, ?_, ?_, ?_, ?_⟩
  · intro e
    refine ⟨_, key_event_open_close s hb hk, ?_⟩
    rw [open_close_case_fail s e]
    split_ifs <;> exact hmod
  · intro e
    refine ⟨_, key_event_open_close s hb hk, ?_⟩
    rw [open_close_case_match s e]
    split_ifs <;> rfl
  · intro e he t ht
    rw [key_event_eq e s hb hk] at ht
    cases e with
    | digit d =>
      obtain ⟨d, hd⟩ := d
      interval_cases d <;>
        simp only [Key.code, run_key_function, digit_case, number_store] at ht <;>
        split_ifs at ht <;> simp at ht <;> rw [← ht]
    | clear =>
      simp only [Key.code, run_key_function, number_store] at ht
      split_ifs at ht <;> simp at ht
      rw [← ht]
    | change =>
      simp only [Key.code, run_key_function] at ht
      split_ifs at ht <;> simp at ht <;> rw [← ht]
    | set =>
      simp only [Key.code, run_key_function, EEPROM_write] at ht
      split_ifs at ht <;> simp at ht <;> rw [← ht]
    | reset =>
      simp only [Key.code, run_key_function, Option.map_some', Option.some.injEq] at ht
      rw [← ht]
    | show_hide =>
      simp only [Key.code, run_key_function, Option.map_some', Option.some.injEq] at ht
      rw [← ht]
    | open_close => exact absurd rfl he
  · rw [key_event_eq _ s hb hk]
    simp [Key.code, run_key_function]
  · intro h1 h4
    rw [key_event_eq _ s hb hk]
    have : (s.index + 255) % 256 < 4 := by omega
    simp [Key.code, run_key_function, number_store, this]
  · intro h
    rw [block_time_running s h]
  · intro h
    rw [block_time_expiry s h]

/-- An instance: the state right after power-on with the credential 1, 2, 3, 4. -/
theorem C10_failure_counter_witness :
    (main_init eeprom_1234).block = 0 ∧ (main_init eeprom_1234).key = 0 ∧
    (main_init eeprom_1234).miss_match < 127 ∧
    ((main_init eeprom_1234).number ≠ (main_init eeprom_1234).password →
      ∃ t, key_event .open_close (main_init eeprom_1234) = some t ∧
        t.miss_match = (main_init eeprom_1234).miss_match + 1) ∧
    ((main_init eeprom_1234).number = (main_init eeprom_1234).password →
      ∃ t, key_event .open_close (main_init eeprom_1234) = some t ∧ t.miss_match = 0) ∧
    (∀ e : Key, e ≠ .open_close → ∀ t, key_event e (main_init eeprom_1234) = some t →
      t.miss_match = (main_init eeprom_1234).miss_match) ∧
    (∃ t, key_event .reset (main_init eeprom_1234) = some t ∧
      t.miss_match = (main_init eeprom_1234).miss_match) ∧
    (1 ≤ (main_init eeprom_1234).index → (main_init eeprom_1234).index ≤ 4 →
      ∃ t, key_event .clear (main_init eeprom_1234) = some t ∧
        t.miss_match = (main_init eeprom_1234).miss_match) ∧
    (((main_init eeprom_1234).wait + 1) % 65536 ≠ 10 →
      (block_time (main_init eeprom_1234)).miss_match = (main_init eeprom_1234).miss_match) ∧
    (((main_init eeprom_1234).wait + 1) % 65536 = 10 →
      (block_time (main_init eeprom_1234)).miss_match = 0) :=
  ⟨rfl, rfl, by decide, C10_failure_counter (main_init eeprom_1234) rfl rfl (by decide)⟩

/-! ## The seconds counter outside a lockout -/

/-- No key function writes `wait`. -/
theorem run_key_function_wait (s t : State) (h : run_key_function s = some t) :
    t.wait = s.wait := by
  have hdig : ∀ d, digit_case d s = some t → t.wait = s.wait := by
    intro d h
    unfold digit_case number_store at h
    split_ifs at h
    · simp only [Option.map_some', Option.some.injEq] at h
      rw [← h]
    · simp at h
  unfold run_key_function at h
  split at h
  all_goals first
    | exact hdig _ h
    | skip
  · simp only [number_store] at h
    split_ifs at h
    · simp only [Option.map_some', Option.some.injEq] at h
      rw [← h]
    · simp at h
  · split_ifs at h <;> simp only [Option.some.injEq] at h <;> rw [← h]
  · split_ifs at h <;> simp only [Option.some.injEq, EEPROM_write] at h <;> rw [← h]
  · simp only [Option.some.injEq] at h
    rw [← h]
  · simp only [Option.some.injEq] at h
    rw [← h]
  · simp only [Option.some.injEq] at h
    rw [← h]
    by_cases e : s.number = s.password
    · rw [open_close_case_match s e]
      split_ifs <;> rfl
    · rw [open_close_case_fail s e]
      split_ifs <;> rfl
  · simp only [Option.some.injEq] at h
    rw [← h]

/-- A key event leaves the seconds counter `wait` as it was. -/
theorem key_event_wait (e : Key) (s t : State) (hk : s.key = 0)
    (h : key_event e s = some t) : t.wait = s.wait := by
  by_cases hb : s.block = 0
  · rw [key_event_eq e s hb hk] at h
    cases hr : run_key_function { s with key := e.code } with
    | none => rw [hr] at h; simp at h
    | some u =>
      rw [hr] at h
      simp only [Option.map_some', Option.some.injEq] at h
      rw [← h]
      exact run_key_function_wait { s with key := e.code } u hr
  · unfold key_event main_loop at h
    rw [if_neg hb] at h
    simp only [Option.some.injEq] at h
    rw [h]

/-- The state `main` enters its loop in, by the stored lockout flag. -/
theorem main_init_eq (eeprom : Nat → Nat) :
    main_init eeprom =
      if eeprom 10 % 256 = 1 then
        { key := 0, number := ⟨10, 10, 10, 10⟩, index := 0,
          password := ⟨eeprom 0 % 256, eeprom 1 % 256, eeprom 2 % 256, eeprom 3 % 256⟩,
          show_ := 1, open_ := 0, match_ := 0, miss_match := 0, block := 1,
          wait := (char_to_uint (eeprom 11 % 256) * 256 % 65536 +
            char_to_uint (eeprom 12 % 256)) % 65536,
          OUT_PORT := 0x20, TCCR1B := 0x0D, eeprom := eeprom, sms_sent := 0 }
      else
        { key := 0, number := ⟨10, 10, 10, 10⟩, index := 0,
          password := ⟨eeprom 0 % 256, eeprom 1 % 256, eeprom 2 % 256, eeprom 3 % 256⟩,
          show_ := 1, open_ := 0, match_ := 0, miss_match := 0, block := eeprom 10 % 256,
          wait := 0, OUT_PORT := 0x80, TCCR1B := 0x00, eeprom := eeprom, sms_sent := 0 } := by
  simp only [main_init, EEPROM_read]
  split_ifs with hc
  · simp [hc]
  · rfl

/-- Power-on without a stored lockout leaves `wait = 0` and the timer stopped. -/
theorem main_init_wait (eeprom : Nat → Nat) (h : (main_init eeprom).block ≠ 1) :
    (main_init eeprom).wait = 0 ∧ (main_init eeprom).TCCR1B = 0 := by
  rw [main_init_eq] at h ⊢
  split_ifs with hc
  · rw [if_pos hc] at h
    exact absurd rfl h
  · exact ⟨rfl, rfl⟩

/-! ## The bounds of the entry buffer -/

/-- C11, at the full buffer: after power-on and the keys 1, 2, 3, 4 (`index = 4`),
every digit key runs `number[index] = d` with `index = 4`, a store past the end of
`number[4]`: the event has no defined result, rather than leaving the state as it
is. -/
theorem C11_fifth_digit_out_of_bounds :
    ∃ a, key_events [.digit 1, .digit 2, .digit 3, .digit 4] (main_init eeprom_1234) = some a ∧
      a.block = 0 ∧ a.key = 0 ∧ a.index = 4 ∧ a.number = ⟨1, 2, 3, 4⟩ ∧
      (∀ d : Fin 10, number_store a.index d.val a = none) ∧
      (∀ d : Fin 10, key_event (.digit d) a = none) :=
  ⟨{ main_init eeprom_1234 with number := ⟨1, 2, 3, 4⟩, index := 4 }, rfl, rfl, rfl, rfl, rfl,
    fun _ => rfl, fun d => key_event_digit_full d _ rfl rfl (by decide)⟩

/-- C12, at the empty buffer: right after power-on (`index = 0`, all slots 10) the
clear key runs `index--`, which takes the byte `index` to 255 (the `char` -1), and
then `number[index] = 10`, a store before the start of `number[4]`: the event has
no defined result, rather than leaving the buffer as it is. -/
theorem C12_clear_on_empty_out_of_bounds :
    (main_init eeprom_1234).block = 0 ∧ (main_init eeprom_1234).index = 0 ∧
    (main_init eeprom_1234).number = Arr4.sentinel ∧
    ((main_init eeprom_1234).index + 255) % 256 = 255 ∧
    number_store 255 10 (main_init eeprom_1234) = none ∧
    run_key_function { main_init eeprom_1234 with key := Key.clear.code } = none ∧
    key_event .clear (main_init eeprom_1234) = none :=
  ⟨rfl, rfl, rfl, rfl, rfl, rfl, rfl⟩

/-! ## Changing the credential -/

theorem key_event_set (s : State) (hb : s.block = 0) (hk : s.key = 0) (hm : s.match_ = 1) :
    key_event .set s =
      some { s with password := s.number,
                    eeprom := Function.update (Function.update (Function.update
                      (Function.update s.eeprom 0 (s.number.a0 % 256)) 1 (s.number.a1 % 256))
                      2 (s.number.a2 % 256)) 3 (s.number.a3 % 256) } := by
  rw [key_event_eq _ s hb hk]
  cases s
  simp only at hk hm
  subst hk hm
  simp [Key.code, run_key_function, EEPROM_write, Arr4.get]

/-- C13: for every four digits D, the set key pressed with `match = 1` and the
entry buffer holding D makes `password` equal to D and stores D at the EEPROM
addresses 0..3, so that the credential `main` loads at the next start is D. -/
theorem C13_set_round_trip (d0 d1 d2 d3 : Fin 10) (s : State)
    (hb : s.block = 0) (hk : s.key = 0) (hm : s.match_ = 1)
    (hn : s.number = ⟨d0.val, d1.val, d2.val, d3.val⟩) :
    ∃ t, key_event .set s = some t ∧
      t.password = ⟨d0.val, d1.val, d2.val, d3.val⟩ ∧
      EEPROM_read 0 t = d0.val ∧ EEPROM_read 1 t = d1.val ∧
      EEPROM_read 2 t = d2.val ∧ EEPROM_read 3 t = d3.val ∧
      (reboot t).password = ⟨d0.val, d1.val, d2.val, d3.val⟩ := by
  refine ⟨_, key_event_set s hb hk hm, ?_⟩
  have h0 : d0.val % 256 = d0.val := by omega
  have h1 : d1.val % 256 = d1.val := by omega
  have h2 : d2.val % 256 = d2.val := by omega
  have h3 : d3.val % 256 = d3.val := by omega
  rw [hn]
  simp [reboot, main_init_eq, EEPROM_read, Function.update, h0, h1, h2, h3]
  split_ifs <;> rfl

/-- An instance: the new credential 5, 6, 7, 8 typed with the door open. -/
theorem C13_set_round_trip_witness :
    set_ready_state.block = 0 ∧ set_ready_state.key = 0 ∧ set_ready_state.match_ = 1 ∧
    set_ready_state.number = ⟨5, 6, 7, 8⟩ ∧
    key_events [.digit 5, .digit 6, .digit 7, .digit 8] door_open_state =
      some set_ready_state ∧
    ∃ t, key_event .set set_ready_state = some t ∧
      t.password = ⟨5, 6, 7, 8⟩ ∧
      EEPROM_read 0 t = 5 ∧ EEPROM_read 1 t = 6 ∧
      EEPROM_read 2 t = 7 ∧ EEPROM_read 3 t = 8 ∧
      (reboot t).password = ⟨5, 6, 7, 8⟩ :=
  ⟨rfl, rfl, rfl, rfl, rfl, C13_set_round_trip 5 6 7 8 set_ready_state rfl rfl rfl rfl⟩

/-! ## Power-on -/

/-- C14, at an erased EEPROM (flag byte 0xFF): `main` takes the branch for "no
lockout" (ready indicator on, Timer1 not started, `wait = 0`) but leaves
`block = 255`, so its loop never calls `get_key`: every pass, whatever the keypad
reads, leaves the state as it is. The device neither resumes a lockout nor
accepts keys. -/
theorem C14_erased_flag_boot :
    EEPROM_read 10 (main_init eeprom_erased) = 255 ∧
    (main_init eeprom_erased).block = 255 ∧
    (main_init eeprom_erased).TCCR1B = 0x00 ∧
    (main_init eeprom_erased).wait = 0 ∧
    (main_init eeprom_erased).OUT_PORT = 0x80 ∧
    (∀ pinb, main_loop pinb (main_init eeprom_erased) = some (main_init eeprom_erased)) ∧
    (∀ e : Key, key_event e (main_init eeprom_erased) = some (main_init eeprom_erased)) :=
  ⟨rfl, rfl, rfl, rfl, rfl, fun _ => rfl, fun _ => rfl⟩

/-- What `main` does by the stored flag byte: 1 resumes the lockout with the timer
started, 0 leaves the device unlocked with the keypad served. -/
theorem main_init_flag (eeprom : Nat → Nat) :
    (eeprom 10 % 256 = 1 →
      (main_init eeprom).block = 1 ∧ (main_init eeprom).TCCR1B = 0x0D ∧
      ∀ pinb, main_loop pinb (main_init eeprom) = some (main_init eeprom)) ∧
    (eeprom 10 % 256 = 0 →
      (main_init eeprom).block = 0 ∧ (main_init eeprom).open_ = 0 ∧
      (main_init eeprom).TCCR1B = 0x00 ∧
      ∀ pinb, main_loop pinb (main_init eeprom) = get_key pinb (main_init eeprom)) := by
  constructor
  · intro h
    have hb : (main_init eeprom).block = 1 := by rw [main_init_eq, if_pos h]
    refine ⟨hb, by rw [main_init_eq, if_pos h], fun pinb => ?_⟩
    simp [main_loop, hb]
  · intro h
    have h1 : ¬ eeprom 10 % 256 = 1 := by omega
    have hb : (main_init eeprom).block = 0 := by rw [main_init_eq, if_neg h1]; exact h
    refine ⟨hb, by rw [main_init_eq, if_neg h1], by rw [main_init_eq, if_neg h1], fun pinb => ?_⟩
    simp [main_loop, hb]

/-! ## The reset key -/

theorem key_event_reset (s : State) (hb : s.block = 0) (hk : s.key = 0) :
    key_event .reset s =
      some { s with index := 0, number := Arr4.sentinel,
                    OUT_PORT := s.OUT_PORT &&& 0xFD } := by
  rw [key_event_eq _ s hb hk]
  cases s
  simp only at hk
  subst hk
  simp [Key.code, run_key_function]

/-- C17 fails on the door state: reset pressed with the door open (after the code
1, 2, 3, 4 and open/close) leaves `open = 1` and the relay asserted. -/
theorem C17_reset_keeps_door_open :
    door_open_state.block = 0 ∧ door_open_state.open_ = 1 ∧ door_open_state.relay = true ∧
    ∃ t, key_event .reset door_open_state = some t ∧ t.open_ = 1 ∧ t.relay = true :=
  ⟨rfl, rfl, rfl, _, key_event_reset door_open_state rfl rfl, rfl, rfl⟩

/-- C17, amended: in every unlocked state a reset empties the entry buffer
(`index = 0`, all slots 10) and turns the buzzer off; the door is left as it was:
`open` and the relay are unchanged, and so is everything but `index`, `number` and
`OUT_PORT`. -/
theorem C17_reset_event (s : State) (hb : s.block = 0) (hk : s.key = 0) :
    ∃ t, key_event .reset s = some t ∧
      t.index = 0 ∧ t.number = Arr4.sentinel ∧ t.buzzer = false ∧
      t.open_ = s.open_ ∧ t.relay = s.relay ∧ t.block = 0 ∧
      t = { s with index := 0, number := Arr4.sentinel, OUT_PORT := t.OUT_PORT } := by
  refine ⟨_, key_event_reset s hb hk, rfl, rfl, ?_, rfl, ?_, hb, rfl⟩
  · have h : Nat.testBit 253 1 = false := by decide
    simp only [State.buzzer, Nat.testBit_land, h, Bool.and_false]
  · have h : Nat.testBit 253 0 = true := by decide
    simp only [State.relay, Nat.testBit_land, h, Bool.and_true]

/-- An instance: reset with the door open. -/
theorem C17_reset_event_witness :
    door_open_state.block = 0 ∧ door_open_state.key = 0 ∧
    ∃ t, key_event .reset door_open_state = some t ∧
      t.index = 0 ∧ t.number = Arr4.sentinel ∧ t.buzzer = false ∧
      t.open_ = door_open_state.open_ ∧ t.relay = door_open_state.relay ∧ t.block = 0 ∧
      t = { door_open_state with
              index := 0, number := Arr4.sentinel, OUT_PORT := t.OUT_PORT } :=
  ⟨rfl, rfl, C17_reset_event door_open_state rfl rfl⟩

theorem land_253_idem (x : Nat) : (x &&& 253) &&& 253 = x &&& 253 := by
  rw [Nat.land_assoc]
  rfl

/-- On an 8-bit port value with bit 1 clear, `&= 0xFD` changes nothing. -/
theorem land_253_of_bit1_clear (x : Nat) (h : x < 256) (hb : x.testBit 1 = false) :
    x &&& 253 = x := by
  apply Nat.eq_of_testBit_eq
  intro i
  rw [Nat.testBit_land]
  by_cases h1 : i = 1
  · subst h1
    rw [hb]
    rfl
  · by_cases h8 : i < 8
    · have : Nat.testBit 253 i = true := by
        interval_cases i <;> first | rfl | exact absurd rfl h1
      rw [this, Bool.and_true]
    · have : x.testBit i = false := by
        apply Nat.testBit_lt_two_pow
        calc x < 256 := h
          _ = 2 ^ 8 := rfl
          _ ≤ 2 ^ i := Nat.pow_le_pow_right (by decide) (by omega)
      rw [this, Bool.false_and]

/-- C18: in every unlocked state a second reset changes nothing after the first;
and when the entry buffer is already empty (`index = 0`, all slots 10) and the
buzzer is off, with `OUT_PORT` an 8-bit value, reset leaves the whole state
unchanged. -/
theorem C18_reset_idempotent (s : State) (hb : s.block = 0) (hk : s.key = 0) :
    (∃ t, key_event .reset s = some t ∧ key_event .reset t = some t) ∧
    (s.OUT_PORT < 256 → s.index = 0 → s.number = Arr4.sentinel → s.buzzer = false →
      key_event .reset s = some s) := by
  constructor
  · refine ⟨_, key_event_reset s hb hk, ?_⟩
    rw [key_event_reset _ (by exact hb) (by exact hk)]
    simp [land_253_idem]
  · intro hp hi hn hz
    rw [key_event_reset s hb hk]
    have := land_253_of_bit1_clear s.OUT_PORT hp hz
    cases s
    simp only at hi hn this
    subst hi hn
    simp [this]

/-- An instance: reset right after power-on. -/
theorem C18_reset_idempotent_witness :
    (main_init eeprom_1234).block = 0 ∧ (main_init eeprom_1234).key = 0 ∧
    (∃ t, key_event .reset (main_init eeprom_1234) = some t ∧
      key_event .reset t = some t) ∧
    ((main_init eeprom_1234).OUT_PORT < 256 → (main_init eeprom_1234).index = 0 →
      (main_init eeprom_1234).number = Arr4.sentinel →
      (main_init eeprom_1234).buzzer = false →
      key_event .reset (main_init eeprom_1234) = some (main_init eeprom_1234)) :=
  ⟨rfl, rfl, C18_reset_idempotent (main_init eeprom_1234) rfl rfl⟩

/-! ## Every key event, and runs of events -/

theorem key_event_clear (s : State) (hb : s.block = 0) (hk : s.key = 0) :
    key_event .clear s =
      if (s.index + 255) % 256 < 4 then
        some { s with index := (s.index + 255) % 256,
                      number := s.number.set ((s.index + 255) % 256) 10, match_ := 0 }
      else none := by
  rw [key_event_eq _ s hb hk]
  cases s
  simp only at hk
  subst hk
  simp only [Key.code, run_key_function, number_store]
  split_ifs <;> simp

theorem key_event_change (s : State) (hb : s.block = 0) (hk : s.key = 0) :
    key_event .change s =
      if s.match_ = 1 then some { s with number := Arr4.sentinel } else some s := by
  rw [key_event_eq _ s hb hk]
  cases s
  simp only at hk
  subst hk
  simp only [Key.code, run_key_function]
  split_ifs <;> simp

theorem key_event_set_denied (s : State) (hb : s.block = 0) (hk : s.key = 0)
    (hm : s.match_ ≠ 1) : key_event .set s = some s := by
  rw [key_event_eq _ s hb hk]
  cases s
  simp only at hk hm
  subst hk
  simp [Key.code, run_key_function, hm]

theorem key_event_show_hide (s : State) (hb : s.block = 0) (hk : s.key = 0) :
    key_event .show_hide s =
      some { s with show_ := show_mod2 ((s.show_ + 1) % 256) } := by
  rw [key_event_eq _ s hb hk]
  cases s
  simp only at hk
  subst hk
  simp [Key.code, run_key_function]

theorem key_event_locked (e : Key) (s : State) (hb : s.block ≠ 0) :
    key_event e s = some s := by
  simp [key_event, main_loop, hb]

theorem open_close_case_key_eq (s : State) : (open_close_case s).key = s.key := by
  by_cases e : s.number = s.password
  · rw [open_close_case_match s e]
    split_ifs <;> rfl
  · rw [open_close_case_fail s e]
    split_ifs <;> rfl

/-- A property kept by every key event and every tick holds along every run. -/
theorem run_invariant (P : State → Prop)
    (hkey : ∀ e s t, P s → key_event e s = some t → P t)
    (htick : ∀ s, P s → P (block_time s)) :
    ∀ (evs : List Event) (s t : State), P s → run evs s = some t → P t := by
  intro evs
  induction evs with
  | nil =>
    intro s t hs h
    simp only [run, Option.some.injEq] at h
    rw [← h]
    exact hs
  | cons ev evs ih =>
    intro s t hs h
    cases ev with
    | key e =>
      cases hu : key_event e s with
      | none => simp [run, step, hu] at h
      | some u =>
        simp only [run, step, hu, Option.some_bind] at h
        exact ih u t (hkey e s u hs hu) h
    | tick =>
      simp only [run, step, Option.some_bind] at h
      exact ih _ t (htick s hs) h

/-- The forms the state after a key event can take: unchanged (not served, or a
denied key), one slot of `number` written by a digit or the clear key, `number`
emptied by the change key, the credential replaced by the set key, a reset, the
display flag flipped, or an open/close. -/
theorem key_event_forms (e : Key) (s t : State) (hk : s.key = 0)
    (h : key_event e s = some t) :
    t = s ∨
    (∃ i v idx m, i < 4 ∧ v ≤ 10 ∧ (m = s.match_ ∨ m = 0) ∧
      t = { s with number := s.number.set i v, index := idx, match_ := m }) ∨
    (s.match_ = 1 ∧ t = { s with number := Arr4.sentinel }) ∨
    (s.match_ = 1 ∧ s.block = 0 ∧
      t = { s with password := s.number,
                   eeprom := Function.update (Function.update (Function.update
                     (Function.update s.eeprom 0 (s.number.a0 % 256)) 1 (s.number.a1 % 256))
                     2 (s.number.a2 % 256)) 3 (s.number.a3 % 256) }) ∨
    t = { s with index := 0, number := Arr4.sentinel, OUT_PORT := s.OUT_PORT &&& 0xFD } ∨
    (∃ v, t = { s with show_ := v }) ∨
    (e = .open_close ∧ s.block = 0 ∧ t = { open_close_case s with key := 0 }) := by
  by_cases hb : s.block = 0
  · cases e with
    | digit d =>
      by_cases hi : s.index < 4
      · rw [key_event_digit d s hb hk hi, Option.some.injEq] at h
        exact Or.inr (Or.inl ⟨s.index, d.val, s.index + 1, s.match_, hi, by omega,
          Or.inl rfl, h.symm⟩)
      · rw [key_event_digit_full d s hb hk hi] at h
        exact absurd h (by simp)
    | clear =>
      rw [key_event_clear s hb hk] at h
      split_ifs at h with hi
      rw [Option.some.injEq] at h
      exact Or.inr (Or.inl ⟨(s.index + 255) % 256, 10, (s.index + 255) % 256, 0, hi,
        by decide, Or.inr rfl, h.symm⟩)
    | change =>
      rw [key_event_change s hb hk] at h
      split_ifs at h with hm
      · rw [Option.some.injEq] at h
        exact Or.inr (Or.inr (Or.inl ⟨hm, h.symm⟩))
      · rw [Option.some.injEq] at h
        exact Or.inl h.symm
    | set =>
      by_cases hm : s.match_ = 1
      · rw [key_event_set s hb hk hm, Option.some.injEq] at h
        exact Or.inr (Or.inr (Or.inr (Or.inl ⟨hm, hb, h.symm⟩)))
      · rw [key_event_set_denied s hb hk hm, Option.some.injEq] at h
        exact Or.inl h.symm
    | reset =>
      rw [key_event_reset s hb hk, Option.some.injEq] at h
      exact Or.inr (Or.inr (Or.inr (Or.inr (Or.inl h.symm))))
    | show_hide =>
      rw [key_event_show_hide s hb hk, Option.some.injEq] at h
      exact Or.inr (Or.inr (Or.inr (Or.inr (Or.inr (Or.inl ⟨_, h.symm⟩)))))
    | open_close =>
      rw [key_event_open_close s hb hk, Option.some.injEq] at h
      exact Or.inr (Or.inr (Or.inr (Or.inr (Or.inr (Or.inr ⟨rfl, hb, h.symm⟩)))))
  · rw [key_event_locked e s hb, Option.some.injEq] at h
    exact Or.inl h.symm

theorem key_event_key (e : Key) (s t : State) (hk : s.key = 0)
    (h : key_event e s = some t) : t.key = 0 := by
  rcases key_event_forms e s t hk h with h | ⟨_, _, _, _, _, _, _, h⟩ | ⟨_, h⟩ | ⟨_, _, h⟩ |
    h | ⟨_, h⟩ | ⟨_, _, h⟩ <;> rw [h] <;> exact hk

theorem block_time_frame (s : State) :
    (block_time s).key = s.key ∧ (block_time s).number = s.number ∧
    (block_time s).password = s.password ∧ (block_time s).open_ = s.open_ ∧
    (block_time s).match_ = s.match_ ∧ (block_time s).index = s.index ∧
    (block_time s).relay = s.relay ∧
    (∀ a, a < 4 → (block_time s).eeprom a = s.eeprom a) := by
  by_cases h : (s.wait + 1) % 65536 = 10
  · rw [block_time_expiry s h]
    refine ⟨rfl, rfl, rfl, rfl, rfl, rfl, ?_, ?_⟩
    · simp [relay_eq, lor_mod_two, land_mod_two]
    · intro a ha
      have h10 : a ≠ 10 := by omega
      have h11 : a ≠ 11 := by omega
      have h12 : a ≠ 12 := by omega
      simp [Function.update, h10, h11, h12]
  · rw [block_time_running s h]
    refine ⟨rfl, rfl, rfl, rfl, rfl, rfl, rfl, ?_⟩
    intro a ha
    have h11 : a ≠ 11 := by omega
    have h12 : a ≠ 12 := by omega
    simp [Function.update, h11, h12]

/-! ## The relay and the door flag -/

theorem open_close_case_relay (s : State) (h : s.relay = true ↔ s.open_ = 1) :
    (open_close_case s).relay = true ↔ (open_close_case s).open_ = 1 := by
  rw [relay_eq] at h
  by_cases e : s.number = s.password
  · rw [open_close_case_match s e]
    by_cases ho : s.open_ = 0
    · simp [ho, relay_eq, lor_mod_two]
    · simp [ho, relay_eq, land_mod_two]
  · rw [open_close_case_fail s e]
    by_cases h3 : (s.miss_match + 1) % 256 = 3 <;>
      by_cases hodd : s.OUT_PORT % 2 = 1 <;>
      simp [h3, relay_eq, lor_mod_two, land_mod_two, hodd] <;>
      simpa [hodd] using h

/-- C19 fails: after power-on with the credential 1, 2, 3, 4 the door is opened
with the code, the digit 9 is typed and open/close is pressed three times. Each
press is a failed attempt, the third sets `block = 1`, and the relay is still
asserted with `open = 1`. -/
theorem C19_lockout_with_door_open :
    ∃ s, run [.key (.digit 1), .key (.digit 2), .key (.digit 3), .key (.digit 4),
          .key .open_close, .key (.digit 9), .key .open_close, .key .open_close,
          .key .open_close] (main_init eeprom_1234) = some s ∧
      s.block = 1 ∧ s.relay = true ∧ s.open_ = 1 := by
  have v3 : ((3 : Fin 10) : Nat) = 3 := rfl
  have v4 : ((4 : Fin 10) : Nat) = 4 := rfl
  have v9 : ((9 : Fin 10) : Nat) = 9 := rfl
  have h0 : main_init eeprom_1234 =
      { key := 0, number := ⟨10, 10, 10, 10⟩, index := 0, password := ⟨1, 2, 3, 4⟩,
        show_ := 1, open_ := 0, match_ := 0, miss_match := 0, block := 0, wait := 0,
        OUT_PORT := 0x80, TCCR1B := 0x00, eeprom := eeprom_1234, sms_sent := 0 } := rfl
  rw [h0]
  simp [run, step, key_event_digit, key_event_open_close, open_close_case_match,
    open_close_case_fail, Arr4.set, Arr4.sentinel, relay_eq, v3, v4, v9]

/-- C19, amended: in every state reached from power-on by key events and ticks
the relay is asserted exactly when `open = 1`; so a device that is locked out with
the door closed (`open = 0`) has the relay deasserted. -/
theorem C19_relay_follows_open (eeprom : Nat → Nat) (evs : List Event) (s : State)
    (h : run evs (main_init eeprom) = some s) :
    (s.relay = true ↔ s.open_ = 1) ∧ (s.block = 1 → s.open_ = 0 → s.relay = false) := by
  have inv : s.key = 0 ∧ (s.relay = true ↔ s.open_ = 1) := by
    refine run_invariant (fun u => u.key = 0 ∧ (u.relay = true ↔ u.open_ = 1))
      ?_ ?_ evs (main_init eeprom) s ?_ h
    · intro e u t ⟨hk, hr⟩ ht
      refine ⟨key_event_key e u t hk ht, ?_⟩
      rcases key_event_forms e u t hk ht with h | ⟨_, _, _, _, _, _, _, h⟩ | ⟨_, h⟩ |
        ⟨_, _, h⟩ | h | ⟨_, h⟩ | ⟨_, _, h⟩ <;> rw [h]
      · exact hr
      · exact hr
      · exact hr
      · exact hr
      · have e0 : Nat.testBit 253 0 = true := by decide
        simp only [State.relay, Nat.testBit_land, e0, Bool.and_true]
        exact hr
      · exact hr
      · exact open_close_case_relay u hr
    · intro u ⟨hk, hr⟩
      obtain ⟨fk, -, -, fo, -, -, fr, -⟩ := block_time_frame u
      rw [fk, fo, fr]
      exact ⟨hk, hr⟩
    · rw [main_init_eq]
      split_ifs <;> simp [relay_eq]
  refine ⟨inv.2, fun _ ho => ?_⟩
  cases hr : s.relay with
  | false => rfl
  | true =>
    have := inv.2.mp hr
    omega

/-- Three instances after power-on with the credential 1, 2, 3, 4: a lockout
entered with the door closed and two ticks into it (`block = 1`, `open = 0`, relay
off); the door opened with the code (`open = 1`, relay on); and a lockout entered
with the door open (`block = 1`, `open = 1`, relay on). -/
theorem C19_relay_follows_open_witness :
    (∃ s, run [.key .open_close, .key .open_close, .key .open_close, .tick, .tick]
          (main_init eeprom_1234) = some s ∧
      s.block = 1 ∧ s.open_ = 0 ∧
      ((s.relay = true ↔ s.open_ = 1) ∧ (s.block = 1 → s.open_ = 0 → s.relay = false)) ∧
      s.relay = false) ∧
    (∃ s, run [.key (.digit 1), .key (.digit 2), .key (.digit 3), .key (.digit 4),
          .key .open_close] (main_init eeprom_1234) = some s ∧
      s.block = 0 ∧ s.open_ = 1 ∧
      ((s.relay = true ↔ s.open_ = 1) ∧ (s.block = 1 → s.open_ = 0 → s.relay = false)) ∧
      s.relay = true) ∧
    (∃ s, run [.key (.digit 1), .key (.digit 2), .key (.digit 3), .key (.digit 4),
          .key .open_close, .key (.digit 9), .key .open_close, .key .open_close,
          .key .open_close, .tick] (main_init eeprom_1234) = some s ∧
      s.block = 1 ∧ s.open_ = 1 ∧
      ((s.relay = true ↔ s.open_ = 1) ∧ (s.block = 1 → s.open_ = 0 → s.relay = false)) ∧
      s.relay = true) := by
  have v3 : ((3 : Fin 10) : Nat) = 3 := rfl
  have v4 : ((4 : Fin 10) : Nat) = 4 := rfl
  have v9 : ((9 : Fin 10) : Nat) = 9 := rfl
  have h0 : main_init eeprom_1234 =
      { key := 0, number := ⟨10, 10, 10, 10⟩, index := 0, password := ⟨1, 2, 3, 4⟩,
        show_ := 1, open_ := 0, match_ := 0, miss_match := 0, block := 0, wait := 0,
        OUT_PORT := 0x80, TCCR1B := 0x00, eeprom := eeprom_1234, sms_sent := 0 } := rfl
  have ha : ∃ s, run [.key .open_close, .key .open_close, .key .open_close, .tick, .tick]
      (main_init eeprom_1234) = some s ∧ s.block = 1 ∧ s.open_ = 0 := by
    rw [h0]
    simp [run, step, key_event_open_close, open_close_case_fail, Arr4.sentinel,
      block_time, EEPROM_write]
  have hb : ∃ s, run [.key (.digit 1), .key (.digit 2), .key (.digit 3), .key (.digit 4),
      .key .open_close] (main_init eeprom_1234) = some s ∧ s.block = 0 ∧ s.open_ = 1 := by
    rw [h0]
    simp [run, step, key_event_digit, key_event_open_close, open_close_case_match,
      Arr4.set, v3, v4]
  have hc : ∃ s, run [.key (.digit 1), .key (.digit 2), .key (.digit 3), .key (.digit 4),
      .key .open_close, .key (.digit 9), .key .open_close, .key .open_close,
      .key .open_close, .tick] (main_init eeprom_1234) = some s ∧
      s.block = 1 ∧ s.open_ = 1 := by
    rw [h0]
    simp [run, step, key_event_digit, key_event_open_close, open_close_case_match,
      open_close_case_fail, Arr4.set, Arr4.sentinel, v3, v4, v9, block_time, EEPROM_write]
  obtain ⟨sa, ra, ba, oa⟩ := ha
  obtain ⟨sb, rb, bb, ob⟩ := hb
  obtain ⟨sc, rc, bc, oc⟩ := hc
  have ta := C19_relay_follows_open eeprom_1234 _ sa ra
  have tb := C19_relay_follows_open eeprom_1234 _ sb rb
  have tc := C19_relay_follows_open eeprom_1234 _ sc rc
  exact ⟨⟨sa, ra, ba, oa, ta, ta.2 ba oa⟩, ⟨sb, rb, bb, ob, tb, tb.1.mpr ob⟩,
    ⟨sc, rc, bc, oc, tc, tc.1.mpr oc⟩⟩

/-! ## The values a credential can take -/

theorem arr_get_le (a : Arr4) (b : Nat) :
    (∀ i, i < 4 → a.get i ≤ b) ↔ (a.a0 ≤ b ∧ a.a1 ≤ b ∧ a.a2 ≤ b ∧ a.a3 ≤ b) := by
  constructor
  · intro h
    exact ⟨h 0 (by decide), h 1 (by decide), h 2 (by decide), h 3 (by decide)⟩
  · intro ⟨h0, h1, h2, h3⟩ i hi
    interval_cases i <;> simp only [Arr4.get] <;> assumption

theorem arr_set_le (a : Arr4) (i v b : Nat) (hv : v ≤ b)
    (ha : ∀ i, i < 4 → a.get i ≤ b) : ∀ j, j < 4 → (a.set i v).get j ≤ b := by
  rw [arr_get_le] at ha ⊢
  obtain ⟨h0, h1, h2, h3⟩ := ha
  unfold Arr4.set
  split <;> exact ⟨by first | exact hv | exact h0, by first | exact hv | exact h1,
    by first | exact hv | exact h2, by first | exact hv | exact h3⟩

theorem sentinel_le : ∀ i, i < 4 → Arr4.sentinel.get i ≤ 10 := by
  rw [arr_get_le]
  exact ⟨by decide, by decide, by decide, by decide⟩

theorem open_close_case_credential (s : State) :
    ((open_close_case s).number = s.number ∨ (open_close_case s).number = Arr4.sentinel) ∧
    (open_close_case s).password = s.password ∧
    (∀ a, a < 4 → (open_close_case s).eeprom a = s.eeprom a) := by
  by_cases e : s.number = s.password
  · rw [open_close_case_match s e]
    split_ifs
    · exact ⟨Or.inl rfl, rfl, fun _ _ => rfl⟩
    · exact ⟨Or.inr rfl, rfl, fun _ _ => rfl⟩
  · rw [open_close_case_fail s e]
    split_ifs
    · refine ⟨Or.inr rfl, rfl, fun a ha => ?_⟩
      have h10 : a ≠ 10 := by omega
      simp [Function.update, h10]
    · exact ⟨Or.inr rfl, rfl, fun _ _ => rfl⟩

/-- C15 fails: after power-on with the credential 1, 2, 3, 4 the door is opened
with the code (`match = 1`), the change key empties the entry buffer and the set
key stores it: the credential in memory and at the EEPROM addresses 0..3 is then
10, 10, 10, 10, and that is what the next start loads. -/
theorem C15_sentinel_stored_as_credential :
    ∃ s, run [.key (.digit 1), .key (.digit 2), .key (.digit 3), .key (.digit 4),
          .key .open_close, .key .change, .key .set] (main_init eeprom_1234) = some s ∧
      s.password = ⟨10, 10, 10, 10⟩ ∧
      s.eeprom 0 = 10 ∧ s.eeprom 1 = 10 ∧ s.eeprom 2 = 10 ∧ s.eeprom 3 = 10 ∧
      (reboot s).password = ⟨10, 10, 10, 10⟩ := by
  have v3 : ((3 : Fin 10) : Nat) = 3 := rfl
  have v4 : ((4 : Fin 10) : Nat) = 4 := rfl
  have h0 : main_init eeprom_1234 =
      { key := 0, number := ⟨10, 10, 10, 10⟩, index := 0, password := ⟨1, 2, 3, 4⟩,
        show_ := 1, open_ := 0, match_ := 0, miss_match := 0, block := 0, wait := 0,
        OUT_PORT := 0x80, TCCR1B := 0x00, eeprom := eeprom_1234, sms_sent := 0 } := rfl
  rw [h0]
  simp [run, step, key_event_digit, key_event_open_close, open_close_case_match,
    key_event_change, key_event_set, Arr4.set, Arr4.sentinel, v3, v4, reboot,
    main_init_eq, Function.update]
  split_ifs <;> rfl

/-- C15, amended: starting from a stored credential of four digits, after every
sequence of key events and ticks each byte of the credential, in memory and at
the EEPROM addresses 0..3, is a digit or the value 10 of an empty slot. -/
theorem C15_credential_at_most_ten (eeprom : Nat → Nat) (hd : ∀ a, a < 4 → eeprom a ≤ 9)
    (evs : List Event) (s : State) (h : run evs (main_init eeprom) = some s) :
    (∀ i, i < 4 → s.password.get i ≤ 10) ∧ (∀ a, a < 4 → s.eeprom a ≤ 10) := by
  have inv : s.key = 0 ∧ (∀ i, i < 4 → s.number.get i ≤ 10) ∧
      (∀ i, i < 4 → s.password.get i ≤ 10) ∧ (∀ a, a < 4 → s.eeprom a ≤ 10) := by
    refine run_invariant (fun u => u.key = 0 ∧ (∀ i, i < 4 → u.number.get i ≤ 10) ∧
      (∀ i, i < 4 → u.password.get i ≤ 10) ∧ (∀ a, a < 4 → u.eeprom a ≤ 10))
      ?_ ?_ evs (main_init eeprom) s ?_ h
    · intro e u t ⟨hk, hn, hp, he⟩ ht
      refine ⟨key_event_key e u t hk ht, ?_⟩
      rcases key_event_forms e u t hk ht with h | ⟨i, v, _, _, _, hv, _, h⟩ | ⟨_, h⟩ |
        ⟨_, _, h⟩ | h | ⟨_, h⟩ | ⟨_, _, h⟩ <;> rw [h]
      · exact ⟨hn, hp, he⟩
      · exact ⟨arr_set_le _ i v 10 hv hn, hp, he⟩
      · exact ⟨sentinel_le, hp, he⟩
      · refine ⟨hn, hn, fun a ha => ?_⟩
        obtain ⟨n0, n1, n2, n3⟩ := (arr_get_le _ _).mp hn
        interval_cases a <;> simp [Function.update] <;> omega
      · exact ⟨sentinel_le, hp, he⟩
      · exact ⟨hn, hp, he⟩
      · obtain ⟨cn, cp, ce⟩ := open_close_case_credential u
        refine ⟨?_, ?_, ?_⟩
        · rcases cn with cn | cn
          · simp only [cn]; exact hn
          · simp only [cn]; exact sentinel_le
        · simp only [cp]; exact hp
        · intro a ha
          simp only [ce a ha]
          exact he a ha
    · intro u ⟨hk, hn, hp, he⟩
      obtain ⟨fk, fn, fp, -, -, -, -, fe⟩ := block_time_frame u
      rw [fk, fn, fp]
      exact ⟨hk, hn, hp, fun a ha => by rw [fe a ha]; exact he a ha⟩
    · rw [main_init_eq]
      have e0 := hd 0 (by decide)
      have e1 := hd 1 (by decide)
      have e2 := hd 2 (by decide)
      have e3 := hd 3 (by decide)
      have hp : ∀ i, i < 4 → (Arr4.mk (eeprom 0 % 256) (eeprom 1 % 256) (eeprom 2 % 256)
          (eeprom 3 % 256)).get i ≤ 10 := by
        rw [arr_get_le]
        simp only
        exact ⟨by omega, by omega, by omega, by omega⟩
      have he : ∀ a, a < 4 → eeprom a ≤ 10 := fun a ha => by have := hd a ha; omega
      split_ifs <;> exact ⟨rfl, sentinel_le, hp, he⟩
  exact ⟨inv.2.2.1, inv.2.2.2⟩

/-- An instance: the run that opens the door, empties the entry buffer with the
change key and presses set. -/
theorem C15_credential_at_most_ten_witness :
    (∀ a, a < 4 → eeprom_1234 a ≤ 9) ∧
    ∃ s, run [.key (.digit 1), .key (.digit 2), .key (.digit 3), .key (.digit 4),
          .key .open_close, .key .change, .key .set] (main_init eeprom_1234) = some s ∧
      (∀ i, i < 4 → s.password.get i ≤ 10) ∧ (∀ a, a < 4 → s.eeprom a ≤ 10) := by
  refine ⟨by decide, ?_⟩
  have hex : ∃ s, run [.key (.digit 1), .key (.digit 2), .key (.digit 3), .key (.digit 4),
      .key .open_close, .key .change, .key .set] (main_init eeprom_1234) = some s := by
    have v3 : ((3 : Fin 10) : Nat) = 3 := rfl
    have v4 : ((4 : Fin 10) : Nat) = 4 := rfl
    have h0 : main_init eeprom_1234 =
        { key := 0, number := ⟨10, 10, 10, 10⟩, index := 0, password := ⟨1, 2, 3, 4⟩,
          show_ := 1, open_ := 0, match_ := 0, miss_match := 0, block := 0, wait := 0,
          OUT_PORT := 0x80, TCCR1B := 0x00, eeprom := eeprom_1234, sms_sent := 0 } := rfl
    rw [h0]
    simp [run, step, key_event_digit, key_event_open_close, open_close_case_match,
      key_event_change, key_event_set, Arr4.set, Arr4.sentinel, v3, v4]
  obtain ⟨s, hs⟩ := hex
  exact ⟨s, hs, C15_credential_at_most_ten eeprom_1234 (by decide) _ s hs⟩

/-! ## No change of credential without a successful verification -/

/-- Along a run in which no served open/close verifies, `match` stays 0 and the
credential stays as it is. -/
theorem never_verifies_frame (evs : List Event) :
    ∀ s t : State, s.key = 0 → s.match_ = 0 → never_verifies evs s = true →
      run evs s = some t →
      t.match_ = 0 ∧ t.password = s.password ∧ (∀ a, a < 4 → t.eeprom a = s.eeprom a) := by
  induction evs with
  | nil =>
    intro s t _ hm _ h
    simp only [run, Option.some.injEq] at h
    rw [← h]
    exact ⟨hm, rfl, fun _ _ => rfl⟩
  | cons ev evs ih =>
    intro s t hk hm hnv h
    cases ev with
    | key e =>
      cases hu : key_event e s with
      | none => simp [run, step, hu] at h
      | some u =>
        simp only [run, step, hu, Option.some_bind] at h
        simp only [never_verifies, step, hu, Bool.and_eq_true, Bool.not_eq_true',
          Bool.and_eq_false_iff, decide_eq_false_iff_not] at hnv
        obtain ⟨hcond, hrest⟩ := hnv
        have hu2 : u.match_ = 0 ∧ u.password = s.password ∧
            (∀ a, a < 4 → u.eeprom a = s.eeprom a) := by
          rcases key_event_forms e s u hk hu with h | ⟨_, _, _, m, _, _, hmm, h⟩ | ⟨h1, _⟩ |
            ⟨h1, _⟩ | h | ⟨_, h⟩ | ⟨he, hb, h⟩
          · rw [h]; exact ⟨hm, rfl, fun _ _ => rfl⟩
          · rw [h]
            refine ⟨?_, rfl, fun _ _ => rfl⟩
            rcases hmm with hmm | hmm
            · rw [hmm]; exact hm
            · exact hmm
          · omega
          · omega
          · rw [h]; exact ⟨hm, rfl, fun _ _ => rfl⟩
          · rw [h]; exact ⟨hm, rfl, fun _ _ => rfl⟩
          · have hne : s.number ≠ s.password := by
              rcases hcond with (hc | hc) | hc
              · exact absurd (by rw [he]) hc
              · exact absurd hb hc
              · exact hc
            rw [h]
            obtain ⟨-, cp, ce⟩ := open_close_case_credential s
            refine ⟨?_, cp, ce⟩
            rw [open_close_case_fail s hne]
            split_ifs <;> rfl
        obtain ⟨i1, i2, i3⟩ := ih u t (key_event_key e s u hk hu) hu2.1 hrest h
        exact ⟨i1, i2.trans hu2.2.1, fun a ha => (i3 a ha).trans (hu2.2.2 a ha)⟩
    | tick =>
      simp only [run, step, Option.some_bind] at h
      simp only [never_verifies, step, Bool.and_eq_true] at hnv
      obtain ⟨fk, -, fp, -, fm, -, -, fe⟩ := block_time_frame s
      obtain ⟨i1, i2, i3⟩ := ih (block_time s) t (by rw [fk]; exact hk)
        (by rw [fm]; exact hm) hnv.2 h
      exact ⟨i1, i2.trans fp, fun a ha => (i3 a ha).trans (fe a ha)⟩

/-- C20: along every sequence of key events (and ticks) from power-on in which no
served open/close finds the entry buffer equal to the credential, `match` is
never set, and at the end the credential in memory is the one loaded at start and
the EEPROM bytes 0..3 are as they were. -/
theorem C20_no_change_without_match (eeprom : Nat → Nat) (evs : List Event) (s : State)
    (hnv : never_verifies evs (main_init eeprom) = true)
    (h : run evs (main_init eeprom) = some s) :
    s.match_ = 0 ∧ s.password = (main_init eeprom).password ∧
    (∀ a, a < 4 → s.eeprom a = eeprom a) := by
  have hk : (main_init eeprom).key = 0 := by rw [main_init_eq]; split_ifs <;> rfl
  have hm : (main_init eeprom).match_ = 0 := by rw [main_init_eq]; split_ifs <;> rfl
  have he : (main_init eeprom).eeprom = eeprom := by rw [main_init_eq]; split_ifs <;> rfl
  obtain ⟨i1, i2, i3⟩ := never_verifies_frame evs (main_init eeprom) s hk hm hnv h
  exact ⟨i1, i2, fun a ha => by rw [i3 a ha, he]⟩

/-- An instance: a wrong code, open/close, then the change and set keys. -/
theorem C20_no_change_without_match_witness :
    never_verifies [.key (.digit 9), .key (.digit 9), .key .open_close, .key .change,
      .key .set] (main_init eeprom_1234) = true ∧
    ∃ s, run [.key (.digit 9), .key (.digit 9), .key .open_close, .key .change,
          .key .set] (main_init eeprom_1234) = some s ∧
      s.match_ = 0 ∧ s.password = (main_init eeprom_1234).password ∧
      (∀ a, a < 4 → s.eeprom a = eeprom_1234 a) := by
  have v9 : ((9 : Fin 10) : Nat) = 9 := rfl
  have h0 : main_init eeprom_1234 =
      { key := 0, number := ⟨10, 10, 10, 10⟩, index := 0, password := ⟨1, 2, 3, 4⟩,
        show_ := 1, open_ := 0, match_ := 0, miss_match := 0, block := 0, wait := 0,
        OUT_PORT := 0x80, TCCR1B := 0x00, eeprom := eeprom_1234, sms_sent := 0 } := rfl
  have hnv : never_verifies [.key (.digit 9), .key (.digit 9), .key .open_close,
      .key .change, .key .set] (main_init eeprom_1234) = true := by
    rw [h0]
    simp [never_verifies, step, key_event_digit, key_event_open_close,
      open_close_case_fail, key_event_change, key_event_set_denied, Arr4.set,
      Arr4.sentinel, v9]
  have hex : ∃ s, run [.key (.digit 9), .key (.digit 9), .key .open_close, .key .change,
      .key .set] (main_init eeprom_1234) = some s := by
    rw [h0]
    simp [run, step, key_event_digit, key_event_open_close,
      open_close_case_fail, key_event_change, key_event_set_denied, Arr4.set,
      Arr4.sentinel, v9]
  obtain ⟨s, hs⟩ := hex
  exact ⟨hnv, s, hs, C20_no_change_without_match eeprom_1234 _ s hnv hs⟩

/-! ## A tick outside a lockout -/

/-- C16 fails: `block_time` does not test `block`. Run right after power-on
(`block = 0`, `wait = 0`, EEPROM bytes 11 and 12 zero) it makes `wait` 1 and stores
1 at the addresses 11 and 12. -/
theorem C16_block_time_not_ignored :
    (main_init eeprom_1234).block = 0 ∧ (main_init eeprom_1234).wait = 0 ∧
    (main_init eeprom_1234).eeprom 11 = 0 ∧ (main_init eeprom_1234).eeprom 12 = 0 ∧
    (block_time (main_init eeprom_1234)).wait = 1 ∧
    (block_time (main_init eeprom_1234)).eeprom 11 = 1 ∧
    (block_time (main_init eeprom_1234)).eeprom 12 = 1 :=
  ⟨rfl, rfl, rfl, rfl, rfl, rfl, rfl⟩

/-- C16, amended: in a state that is not locked out, a run of `block_time` that
does not bring `wait` to 10 advances `wait` by one and stores its low byte at the
EEPROM addresses 11 and 12; `block`, `miss_match`, the outputs, the timer control,
the credential and every other EEPROM byte are unchanged. -/
theorem C16_block_time_unlocked (s : State) (hb : s.block = 0)
    (hw : (s.wait + 1) % 65536 ≠ 10) :
    (block_time s).wait = (s.wait + 1) % 65536 ∧
    (block_time s).eeprom 11 = (s.wait + 1) % 65536 % 256 ∧
    (block_time s).eeprom 12 = (s.wait + 1) % 65536 % 256 ∧
    (block_time s).block = 0 ∧ (block_time s).miss_match = s.miss_match ∧
    (block_time s).OUT_PORT = s.OUT_PORT ∧ (block_time s).TCCR1B = s.TCCR1B ∧
    (block_time s).password = s.password ∧
    (∀ a, a ≠ 11 → a ≠ 12 → (block_time s).eeprom a = s.eeprom a) := by
  rw [block_time_running s hw]
  refine ⟨rfl, ?_, ?_, hb, rfl, rfl, rfl, rfl, ?_⟩
  · simp [Function.update]
  · simp [Function.update]
  · intro a h11 h12
    simp [Function.update, h11, h12]

/-- An instance: the state right after power-on. -/
theorem C16_block_time_unlocked_witness :
    (main_init eeprom_1234).block = 0 ∧ ((main_init eeprom_1234).wait + 1) % 65536 ≠ 10 ∧
    (block_time (main_init eeprom_1234)).wait = ((main_init eeprom_1234).wait + 1) % 65536 ∧
    (block_time (main_init eeprom_1234)).eeprom 11 =
      ((main_init eeprom_1234).wait + 1) % 65536 % 256 ∧
    (block_time (main_init eeprom_1234)).eeprom 12 =
      ((main_init eeprom_1234).wait + 1) % 65536 % 256 ∧
    (block_time (main_init eeprom_1234)).block = 0 ∧
    (block_time (main_init eeprom_1234)).miss_match = (main_init eeprom_1234).miss_match ∧
    (block_time (main_init eeprom_1234)).OUT_PORT = (main_init eeprom_1234).OUT_PORT ∧
    (block_time (main_init eeprom_1234)).TCCR1B = (main_init eeprom_1234).TCCR1B ∧
    (block_time (main_init eeprom_1234)).password = (main_init eeprom_1234).password ∧
    (∀ a, a ≠ 11 → a ≠ 12 →
      (block_time (main_init eeprom_1234)).eeprom a = (main_init eeprom_1234).eeprom a) :=
  ⟨rfl, by decide, C16_block_time_unlocked (main_init eeprom_1234) rfl (by decide)⟩

/-- Timer1 is stopped (`TCCR1B = 0`) in every unlocked state the device reaches:
it is started only where `block` is set to 1 and stopped where `block` is cleared. -/
theorem unlocked_timer_stopped (eeprom : Nat → Nat) (evs : List Event) (s : State)
    (h : run evs (main_init eeprom) = some s) : s.block = 0 → s.TCCR1B = 0 := by
  have inv : s.key = 0 ∧ (s.block = 0 → s.TCCR1B = 0) := by
    refine run_invariant (fun u => u.key = 0 ∧ (u.block = 0 → u.TCCR1B = 0))
      ?_ ?_ evs (main_init eeprom) s ?_ h
    · intro e u t ⟨hk, hr⟩ ht
      refine ⟨key_event_key e u t hk ht, ?_⟩
      rcases key_event_forms e u t hk ht with h | ⟨_, _, _, _, _, _, _, h⟩ | ⟨_, h⟩ |
        ⟨_, _, h⟩ | h | ⟨_, h⟩ | ⟨_, hb, h⟩ <;> rw [h]
      · exact hr
      · exact hr
      · exact hr
      · exact hr
      · exact hr
      · exact hr
      · by_cases e : u.number = u.password
        · rw [open_close_case_match u e]
          split_ifs <;> exact hr
        · rw [open_close_case_fail u e]
          split_ifs
          · intro h1
            exact absurd h1 (by simp)
          · exact hr
    · intro u ⟨hk, hr⟩
      refine ⟨by rw [(block_time_frame u).1]; exact hk, ?_⟩
      by_cases hx : (u.wait + 1) % 65536 = 10
      · rw [block_time_expiry u hx]
        intro _
        rfl
      · rw [block_time_running u hx]
        exact hr
    · rw [main_init_eq]
      split_ifs
      · exact ⟨rfl, fun h1 => absurd h1 Nat.one_ne_zero⟩
      · exact ⟨rfl, fun _ => rfl⟩
  exact inv.2

end DoorLock
